import Mathlib

/-!
Shallow embedding of the Lead-Scraper run engine.

The definitions below are translated from the repository's TypeScript
sources:

* the step handler (the per-row run engine) and its field-normalizer
  helpers (`normalizeWeekday`, `normalizeTime`, `normalizeHoursRanges`,
  `toOpeningHoursText`, `normalizePhoneNumber`, the lead-row mapping and
  dedup filter),
* the run-start handler (header ensuring, dedup-set loading, run-state
  initialisation),
* the cancel handler (cancellation flag and best-effort abort), and
* the spreadsheet helpers (`rowToDict`, `findHeaderIndex`,
  `ensureHeader`) and apify helpers (`parseSearchStrings`,
  `buildApifyInputFromRow`).

External effects (spreadsheet writes, job start/poll/fetch/abort) are
recorded as an event trace; the results of external calls (the row read,
the job-start response, the terminal poll result, the fetched dataset
items) are supplied by a per-call environment.  Wall-clock timestamps
(`fmtDateTime(new Date())` in the source) are modelled by an opaque time
oracle `time : Nat → String` indexed by the order of the `new Date()`
calls inside one handler invocation.  JavaScript strings are modelled by
Lean strings; JS `trim` / `toLowerCase` / `toUpperCase` are modelled by
the corresponding ASCII string operations.
-/

namespace Engine

/-! ### Small string helpers (JS semantics) -/

/-- JS whitespace for trimming/collapsing (ASCII subset). -/
def isWS (c : Char) : Bool :=
  c.isWhitespace

/-- Trimming of a char list (both ends, ASCII whitespace). -/
def trimChars (cs : List Char) : List Char :=
  ((cs.dropWhile isWS).reverse.dropWhile isWS).reverse

/-- JS `String.prototype.trim` (ASCII whitespace). -/
def jsTrim (s : String) : String :=
  String.mk (trimChars s.data)

/-- JS `String.prototype.toLowerCase` (ASCII). -/
def lowerStr (s : String) : String :=
  String.mk (s.data.map Char.toLower)

/-- JS `String.prototype.toUpperCase` (ASCII). -/
def upperStr (s : String) : String :=
  String.mk (s.data.map Char.toUpper)

/-- JS `Array.prototype.join` with a separator. -/
def joinSep (sep : String) : List String → String
  | [] => ""
  | [x] => x
  | x :: rest => x ++ sep ++ joinSep sep rest

/-- Split a char list at every occurrence of a single character. -/
def splitOnChar (sep : Char) : List Char → List Char → List (List Char)
  | acc, [] => [acc.reverse]
  | acc, c :: rest =>
    if c = sep then acc.reverse :: splitOnChar sep [] rest
    else splitOnChar sep (c :: acc) rest


/-- JS `\w` character class (ASCII letters, digits, underscore). -/
def isWordChar (c : Char) : Bool :=
  c.isAlphanum || c = '_'

/-- One step of whitespace-run collapsing: every maximal run of
whitespace becomes a single space (the `\s+` → `" "` replace). -/
def collapseRuns : List Char → List Char
  | [] => []
  | [c] => if c.isWhitespace then [' '] else [c]
  | c :: d :: rest =>
    if c.isWhitespace && d.isWhitespace then collapseRuns (d :: rest)
    else (if c.isWhitespace then ' ' else c) :: collapseRuns (d :: rest)

/-- The cleaning prefix shared by `normalizeTime` / `normalizeHoursRanges`:
replace narrow/no-break spaces by plain spaces, collapse whitespace runs,
and trim. -/
def cleanSpaces (s : String) : String :=
  let mapped := s.data.map fun c =>
    if c = ' ' || c = ' ' then ' ' else c
  jsTrim (String.mk (collapseRuns mapped))

/-- `String(ch).split(",")` pieces of a string, JS `split(",")` semantics
(empty pieces kept). -/
def splitCommas (s : String) : List String :=
  (splitOnChar ',' [] s.data).map String.mk

/-- Split on the regex `/\s+to\s+/i`.  The argument is always a piece of
an already whitespace-collapsed string, so each separator occurrence is
exactly a space, `t`/`T`, `o`/`O`, and a space.  Matches are found left
to right, non-overlapping. -/
def splitOnToChars : List Char → List Char → List (List Char)
  | acc, ' ' :: t :: o :: ' ' :: rest =>
    if (t = 't' || t = 'T') && (o = 'o' || o = 'O') then
      acc.reverse :: splitOnToChars [] rest
    else splitOnToChars (' ' :: acc) (t :: o :: ' ' :: rest)
  | acc, c :: rest => splitOnToChars (c :: acc) rest
  | acc, [] => [acc.reverse]

/-- String wrapper for `splitOnToChars`. -/
def splitOnTo (s : String) : List String :=
  (splitOnToChars [] s.data).map String.mk

/-- First match of `/\b(am|pm)\b/i`, uppercased; `""` when absent
(`getMeridiem` in the source). -/
def findMeridiem : Option Char → List Char → String
  | prev, c1 :: c2 :: rest =>
    if (c1.toLower = 'a' || c1.toLower = 'p') && c2.toLower = 'm'
        && (match prev with | none => true | some p => !isWordChar p)
        && (match rest with | [] => true | r :: _ => !isWordChar r) then
      String.mk [c1.toUpper, 'M']
    else findMeridiem (some c1) (c2 :: rest)
  | _, _ => ""

/-- `getMeridiem` from the step handler. -/
def getMeridiem (raw : String) : String :=
  findMeridiem none raw.data

/-! ### Time parsing (`/^(\d{1,2})(?::(\d{2}))?\s*(AM|PM)?$/` on the
cleaned, uppercased string).  Returns the numeric hour, the two-digit
minute string (or `"00"` when absent, mirroring `m[2] ?? "00"`), and the
meridiem (`"AM"`, `"PM"`, or `""` when the group did not match). -/

/-- Numeric value of a digit list (JS `Number` on a digit string). -/
def digitsToNat : List Char → Nat
  | ds => ds.foldl (fun acc c => acc * 10 + (c.toNat - '0'.toNat)) 0

/-- Match the tail `\s*(AM|PM)?$`. -/
def parseMeridiemTail (cs : List Char) : Option String :=
  match cs.dropWhile Char.isWhitespace with
  | [] => some ""
  | ['A', 'M'] => some "AM"
  | ['P', 'M'] => some "PM"
  | _ => none

/-- Match the full anchored regex against an already-cleaned, uppercased
string. -/
def parseTime (s : String) : Option (Nat × String × String) :=
  let cs := s.data
  let ds := cs.takeWhile Char.isDigit
  let rest := cs.dropWhile Char.isDigit
  if ds.length = 0 || ds.length > 2 then none
  else
    match rest with
    | ':' :: rest2 =>
      let ms := rest2.takeWhile Char.isDigit
      let rest3 := rest2.dropWhile Char.isDigit
      if ms.length ≠ 2 then none
      else
        match parseMeridiemTail rest3 with
        | some mer => some (digitsToNat ds, String.mk ms, mer)
        | none => none
    | _ =>
      match parseMeridiemTail rest with
      | some mer => some (digitsToNat ds, "00", mer)
      | none => none

/-! ### Field normalizer (pure helpers of the step handler) -/

/-- `normalizeWeekday` from the step handler. -/
def normalizeWeekday (rawDay : String) : String :=
  let cleaned := lowerStr (jsTrim rawDay)
  if cleaned = "monday" ∨ cleaned = "mon" then "Monday"
  else if cleaned = "tuesday" ∨ cleaned = "tue" ∨ cleaned = "tues" then "Tuesday"
  else if cleaned = "wednesday" ∨ cleaned = "wed" then "Wednesday"
  else if cleaned = "thursday" ∨ cleaned = "thu" ∨ cleaned = "thurs" then "Thursday"
  else if cleaned = "friday" ∨ cleaned = "fri" then "Friday"
  else if cleaned = "saturday" ∨ cleaned = "sat" then "Saturday"
  else if cleaned = "sunday" ∨ cleaned = "sun" then "Sunday"
  else jsTrim rawDay

/-- `normalizeTime` from the step handler.  `fallbackMeridiem` defaults
to `""` at call sites that omit it. -/
def normalizeTime (raw : String) (fallbackMeridiem : String := "") : String :=
  let cleaned := upperStr (cleanSpaces raw)
  match parseTime cleaned with
  | none => jsTrim raw
  | some (hour, minute, mer) =>
    let meridiem := if mer = "" then fallbackMeridiem else mer
    if meridiem = "" then s!"{hour}:{minute} AM"
    else if minute = "00" then s!"{hour} {meridiem}"
    else s!"{hour}:{minute} {meridiem}"

/-- One comma-separated range piece of `normalizeHoursRanges`: a
two-part `S to E` range re-formats both ends (the end inherits no
meridiem, the start inherits the end's); anything else is normalized as
a single time. -/
def formatRange (range : String) : String :=
  match splitOnTo range with
  | [p, q] =>
    let startRaw := jsTrim p
    let endRaw := jsTrim q
    let endT := normalizeTime endRaw
    let endMeridiem := getMeridiem endRaw
    let startT := normalizeTime startRaw endMeridiem
    startT ++ " to " ++ endT
  | _ => normalizeTime range

/-- `normalizeHoursRanges` from the step handler. -/
def normalizeHoursRanges (rawHours : String) : String :=
  let cleaned := cleanSpaces rawHours
  if cleaned = "" then ""
  else if lowerStr cleaned = "closed" then "Closed"
  else
    let ranges := ((splitCommas cleaned).map jsTrim).filter (· ≠ "")
    let formattedRanges := (ranges.map formatRange).filter (· ≠ "")
    joinSep ", " formattedRanges

/-! ### Dataset items (`ExternalRecord`): JSON-like values -/

/-- JSON-like value of a provider dataset item field.  Numbers are
restricted to integers (the natural keys and fields the engine reads are
strings or integer counts; float formatting is outside this model). -/
inductive JVal where
  | s (v : String)
  | n (v : Int)
  | b (v : Bool)
  | null
  | arr (vs : List JVal)
  | obj (fs : List (String × JVal))
deriving Repr

/-- A dataset item: a JS object, keys unique, in insertion order. -/
abbrev Item := List (String × JVal)

/-- JS property read: `none` models `undefined`. -/
def jGet (fields : Item) (k : String) : Option JVal :=
  (fields.find? (·.1 = k)).map (·.2)

/-- `getItemField` from the step handler: first candidate key whose
value is neither `undefined` nor `null`. -/
def getItemField (item : Item) : List String → Option JVal
  | [] => none
  | k :: ks =>
    match jGet item k with
    | none => getItemField item ks
    | some .null => getItemField item ks
    | some v => some v

/-- JS truthiness of a field value. -/
def jTruthy : JVal → Bool
  | .s v => v ≠ ""
  | .n v => v ≠ 0
  | .b v => v
  | .null => false
  | .arr _ => true
  | .obj _ => true

/-- `JSON.stringify` escaping of one character (common escapes; exotic
control characters are outside this model). -/
def escapeJsonChar (c : Char) : String :=
  if c = '"' then "\\\"" else if c = '\\' then "\\\\"
  else if c = '\n' then "\\n" else if c = '\r' then "\\r"
  else if c = '\t' then "\\t"
  else String.mk [c]

/-- `JSON.stringify` escaping of a string body. -/
def escapeJson (s : String) : String :=
  String.join (s.data.map escapeJsonChar)

mutual

/-- `JSON.stringify` of a field value (the `toStringOrEmpty` fallback for
arrays and objects). -/
def jsonStringify : JVal → String
  | .s v => "\"" ++ escapeJson v ++ "\""
  | .n v => toString v
  | .b true => "true"
  | .b false => "false"
  | .null => "null"
  | .arr vs => "[" ++ jsonArrBody vs ++ "]"
  | .obj fs => "\x7b" ++ jsonObjBody fs ++ "\x7d"

/-- Comma-joined `JSON.stringify` of array elements. -/
def jsonArrBody : List JVal → String
  | [] => ""
  | [v] => jsonStringify v
  | v :: rest => jsonStringify v ++ "," ++ jsonArrBody rest

/-- Comma-joined `JSON.stringify` of object entries. -/
def jsonObjBody : List (String × JVal) → String
  | [] => ""
  | [(k, v)] => "\"" ++ escapeJson k ++ "\":" ++ jsonStringify v
  | (k, v) :: rest =>
    "\"" ++ escapeJson k ++ "\":" ++ jsonStringify v ++ "," ++ jsonObjBody rest

end

/-- `toStringOrEmpty` from the step handler; the argument is an optional
value so `undefined` is representable. -/
def toStringOrEmpty : Option JVal → String
  | none => ""
  | some .null => ""
  | some (.s v) => v
  | some (.n v) => toString v
  | some (.b v) => if v then "true" else "false"
  | some (.arr vs) => jsonStringify (.arr vs)
  | some (.obj fs) => jsonStringify (.obj fs)

/-- `toFirstUrl` from the step handler. -/
def toFirstUrl : Option JVal → String
  | none => ""
  | some v =>
    if !jTruthy v then ""
    else
      match v with
      | .s str => str
      | .arr ((.s str) :: _) => str
      | .arr _ => ""
      | _ => ""

/-- `normalizePhoneNumber` from the step handler (strip non-digits). -/
def normalizePhoneNumber (raw : Option JVal) : String :=
  let str := toStringOrEmpty raw
  if str = "" then "" else String.mk (str.data.filter Char.isDigit)

/-- One entry of an opening-hours array (the mapper inside
`toOpeningHoursText`).  A nested array is a JS object without
`day`/`weekday`/`name` properties, so it falls into the stringify
branch; `null` and primitives take the `!x || typeof x !== "object"`
branch. -/
def openingHoursEntry : JVal → String
  | .obj fs =>
    let rawDay := toStringOrEmpty (getItemField fs ["day", "weekday", "name"])
    let rawHours := toStringOrEmpty (getItemField fs ["hours", "open", "time"])
    if rawDay = "" then toStringOrEmpty (some (.obj fs))
    else
      let day := normalizeWeekday rawDay
      let hours := normalizeHoursRanges rawHours
      day ++ " - " ++ (if hours = "" then "Closed" else hours)
  | .arr vs => toStringOrEmpty (some (.arr vs))
  | x => toStringOrEmpty (some x)

/-- `toOpeningHoursText` from the step handler. -/
def toOpeningHoursText (item : Item) : String :=
  match getItemField item
      ["openingHours", "opening_hours", "openingHoursText", "openingHoursOpenDays"] with
  | none => ""
  | some v =>
    if !jTruthy v then ""
    else
      match v with
      | .s str => str
      | .arr vs => joinSep "\n" ((vs.map openingHoursEntry).filter (· ≠ ""))
      | .obj fs =>
        match jGet fs "weekdayText" with
        | some (.arr ws) =>
          joinSep "\n" ((ws.map (fun w => toStringOrEmpty (some w))).filter (· ≠ ""))
        | _ => toStringOrEmpty (some (.obj fs))
      | _ => toStringOrEmpty (some v)

/-! ### Spreadsheet helpers (`sheets.ts` and the start handler) -/

/-- Index of the first list element satisfying a predicate (the scan
loops of `findHeaderIndex` / `findHeaderIndexCaseInsensitive`). -/
def findIdxFrom (p : String → Bool) : List String → Option Nat
  | [] => none
  | h :: rest => if p h then some 0 else (findIdxFrom p rest).map (· + 1)

/-- `findHeaderIndex` from `sheets.ts`: exact trimmed match, 0-based
(`none` models the TS `-1`). -/
def findHeaderIndex (headers : List String) (headerName : String) : Option Nat :=
  findIdxFrom (fun h => jsTrim h = jsTrim headerName) headers

/-- `findHeaderIndexCaseInsensitive` from the start handler (0-based). -/
def findHeaderIndexCaseInsensitive (headers : List String) (headerName : String) :
    Option Nat :=
  findIdxFrom (fun h => lowerStr (jsTrim h) = lowerStr (jsTrim headerName)) headers

/-- Effect of `setCell` on row 1 as observed through `getRow`: write a
value at a 1-based column of the header row, padding with empty cells. -/
def setHeaderCell : List String → Nat → String → List String
  | hs, 0, _ => hs
  | [], 1, value => [value]
  | _ :: rest, 1, value => value :: rest
  | [], n + 2, value => "" :: setHeaderCell [] (n + 1) value
  | h :: rest, n + 2, value => h :: setHeaderCell rest (n + 1) value

/-- `ensureHeader` from `sheets.ts`: the 1-based column of the header,
appending it at the next free column when absent; also returns the
header row after the call. -/
def ensureHeader (headers : List String) (headerName : String) : Nat × List String :=
  match findHeaderIndex headers headerName with
  | some idx0 => (idx0 + 1, headers)
  | none =>
    let col := headers.length + 1
    (col, setHeaderCell headers col headerName)

/-- The `ensureHeader` call sequence of the start handler, threading the
settings header row through the calls. -/
def ensureHeaders : List String → List String → List Nat × List String
  | [], headers => ([], headers)
  | n :: rest, headers =>
    let e := ensureHeader headers n
    let r := ensureHeaders rest e.2
    (e.1 :: r.1, r.2)

/-- The six tracked header names ensured by the start handler, in call
order. -/
def startHeaderNames (datasetUrlHeader : String) : List String :=
  [datasetUrlHeader, "Scraped", "Status", "Comments",
   "Google-Maps Scrape Status", "Google-Maps Push Status"]

/-- JS object insert-or-assign (insertion order kept, value replaced). -/
def upsert : List (String × String) → String → String → List (String × String)
  | [], k, v => [(k, v)]
  | (k0, v0) :: rest, k, v =>
    if k0 = k then (k0, v) :: rest else (k0, v0) :: upsert rest k v

/-- `rowToDict` from `sheets.ts`: project a row onto trimmed headers,
skipping empty header names; a duplicate header keeps its first position
with the later value (JS object assignment). -/
def rowToDict (headers row : List String) : List (String × String) :=
  headers.enum.foldl
    (fun acc p =>
      let key := jsTrim p.2
      if key = "" then acc else upsert acc key (row.getD p.1 ""))
    []

/-- `getFromRowCaseInsensitive` from the step handler: first entry whose
key matches case-insensitively after trimming. -/
def getFromRowCaseInsensitive (row : List (String × String)) (headerName : String) :
    String :=
  match row.find? (fun p => lowerStr (jsTrim p.1) = lowerStr (jsTrim headerName)) with
  | some p => p.2
  | none => ""

/-- JS exact-key property read with the `?? ""` default. -/
def exactGet (row : List (String × String)) (k : String) : String :=
  match row.find? (·.1 = k) with
  | some p => p.2
  | none => ""

/-! ### Job input (`apify.ts`) -/

/-- Newline normalisation of `parseSearchStrings`: `\r\n`, `\r` and
`\n` each become one comma. -/
def nlToComma : List Char → List Char
  | [] => []
  | '\r' :: '\n' :: rest => ',' :: nlToComma rest
  | '\r' :: rest => ',' :: nlToComma rest
  | '\n' :: rest => ',' :: nlToComma rest
  | c :: rest => c :: nlToComma rest

/-- `parseSearchStrings` from `apify.ts`. -/
def parseSearchStrings (raw : String) : List String :=
  if raw = "" then []
  else (((splitOnChar ',' [] (nlToComma raw.data)).map String.mk).map jsTrim).filter
    (· ≠ "")

/-- The job input assembled by `buildApifyInputFromRow`: only the
row-dependent fields are tracked (the source also sets a fixed block of
constant option flags, which never vary and are not modelled). -/
structure ApifyInput where
  locationQuery : Option String
  searchStringsArray : Option (List String)
  maxCrawledPlacesPerSearch : Option Nat
deriving Repr, DecidableEq

/-- JS `Number(...)`-then-`Math.floor` on the Max Limit cell, restricted
to digit strings (fractional or exotic numeric shapes are outside this
model; no claim depends on this field). -/
def parsePositiveInt (s : String) : Option Nat :=
  if s ≠ "" ∧ s.data.all Char.isDigit then
    let v := digitsToNat s.data
    if v > 0 then some v else none
  else none

/-- `buildApifyInputFromRow` from `apify.ts` (row-dependent fields). -/
def buildApifyInputFromRow (row : List (String × String)) : ApifyInput :=
  let locationQuery := jsTrim (exactGet row "Search Location")
  let maxLimitRaw := jsTrim (exactGet row "Max Limit")
  let subNichesRaw := exactGet row "Sub-Niches"
  let searchStrings := parseSearchStrings subNichesRaw
  { locationQuery := if locationQuery ≠ "" then some locationQuery else none
    searchStringsArray := if searchStrings ≠ [] then some searchStrings else none
    maxCrawledPlacesPerSearch :=
      if maxLimitRaw ≠ "" then parsePositiveInt maxLimitRaw else none }

/-- `"locationQuery" in input && "searchStringsArray" in input` from the
step handler. -/
def hasRequired (input : ApifyInput) : Bool :=
  input.locationQuery.isSome && input.searchStringsArray.isSome

/-! ### Run data model (`runState.ts`) -/

/-- A row outcome status. -/
inductive RowStatus where
  | skipped
  | succeeded
  | failed
deriving Repr, DecidableEq

/-- One entry of the run's per-row result log. -/
structure PerRowEntry where
  row : Nat
  status : RowStatus
  message : Option String
  datasetUrl : Option String
  leads : Option Nat
deriving Repr, DecidableEq

/-- `RunProgress` from `runState.ts`.  The dedup key set is modelled as
a duplicate-free list in insertion order. -/
structure RunProgress where
  runId : String
  spreadsheetId : String
  settingsSheetName : String
  leadsSheetName : String
  startRow : Nat
  endRow : Nat
  rowNumbers : List Nat
  currentIndex : Nat
  processed : Nat
  skipped : Nat
  totalLeads : Nat
  startedAt : String
  finishedAt : Option String
  perRow : List PerRowEntry
  headersAfterEnsure : List String
  leadsHeaders : List String
  existingUniqueIds : List String
  datasetCol : Nat
  scrapedCol : Nat
  statusCol : Nat
  commentsCol : Nat
  scrapeStatusCol : Nat
  pushStatusCol : Nat
  apifyTokenHeader : String
  datasetUrlHeader : String
deriving Repr, DecidableEq

/-- `RunState` from `runState.ts` (the process-wide mutable state). -/
structure RunState where
  cancelRequested : Bool
  activeRunId : Option String
  activeToken : Option String
  currentRun : Option RunProgress
deriving Repr, DecidableEq

/-- The progress summary returned by the start and step handlers
(`makeSummary`). -/
structure Summary where
  runId : String
  settingsSheetName : String
  leadsSheetName : Option String
  startRow : Nat
  endRow : Nat
  processed : Nat
  skipped : Nat
  totalLeads : Nat
  startedAt : String
  finishedAt : Option String
  perRow : List PerRowEntry
  done : Bool
deriving Repr, DecidableEq

/-- `makeSummary` from the step handler (with the active run in scope). -/
def makeSummary (run : RunProgress) (done : Bool) : Summary :=
  { runId := run.runId
    settingsSheetName := run.settingsSheetName
    leadsSheetName := if run.leadsSheetName = "" then none else some run.leadsSheetName
    startRow := run.startRow
    endRow := run.endRow
    processed := run.processed
    skipped := run.skipped
    totalLeads := run.totalLeads
    startedAt := run.startedAt
    finishedAt := run.finishedAt
    perRow := run.perRow
    done := done }

/-- Externally visible effects of one handler call: spreadsheet writes
and job-provider calls, in program order. -/
inductive Event where
  | setCell (sheet : String) (row : Nat) (col : Nat) (value : String)
  | appendRows (sheet : String) (rows : List (List String))
  | jobStart (token : String)
  | jobPoll (token : String) (jobId : String)
  | fetchItems (token : String) (datasetId : String)
  | abortJob (token : String) (jobId : String)
deriving Repr, DecidableEq

/-- Whether an event is a job-start call. -/
def isJobStart : Event → Bool
  | .jobStart _ => true
  | _ => false

/-- The step handler's caller-protocol errors. -/
inductive StepErr where
  | notAuthorized
  | noActiveRun
  | runMismatch
deriving Repr, DecidableEq

instance exceptDecEq {ε α : Type} [DecidableEq ε] [DecidableEq α] :
    DecidableEq (Except ε α) := fun a b =>
  match a, b with
  | .ok x, .ok y => if h : x = y then isTrue (by rw [h]) else isFalse (by simp [h])
  | .error x, .error y => if h : x = y then isTrue (by rw [h]) else isFalse (by simp [h])
  | .ok _, .error _ => isFalse (by simp)
  | .error _, .ok _ => isFalse (by simp)

/-- Per-call environment of one step invocation: results of the external
calls the handler may make, and the time oracle (indexed by the order of
the `new Date()` allocations in the call). -/
structure StepEnv where
  authorized : Bool
  rowValues : List String
  envApifyToken : String
  startResult : Except String String
  pollResult : Except String (String × String)
  cancelDuringPoll : Bool
  itemsResult : Except String (List Item)
  time : Nat → String

/-- Result of one step invocation. -/
structure StepOut where
  resp : Except StepErr Summary
  state : RunState
  events : List Event

/-! ### Lead-row mapping and dedup filter -/

/-- Natural-key extraction (`uniqueId` in the lead-row mapper): first
present of `placeId`, `place_id`, `id`, `placeID`, stringified, trimmed. -/
def extractUniqueId (item : Item) : String :=
  jsTrim (toStringOrEmpty (getItemField item ["placeId", "place_id", "id", "placeID"]))

/-- One output cell of a lead row (the header switch inside the lead-row
mapper of the step handler). -/
def leadCell (item : Item) (uniqueId nowStr : String) (h : String) : String :=
  let header := jsTrim h
  if header = "" then ""
  else if header = "Unique ID" then uniqueId
  else if header = "Business Name" then
    toStringOrEmpty (getItemField item ["title", "name"])
  else if header = "Opening Hours" then toOpeningHoursText item
  else if header = "Comments" then ""
  else if header = "Phone Number" then
    normalizePhoneNumber (getItemField item ["phone", "phoneNumber"])
  else if header = "Other Phones" then
    match getItemField item ["phones", "phoneNumbers", "otherPhones"] with
    | some (.arr vs) =>
      joinSep " | " ((vs.map (fun v => normalizePhoneNumber (some v))).filter (· ≠ ""))
    | v => normalizePhoneNumber v
  else if header = "Email" then
    match getItemField item ["emails", "email"] with
    | some (.arr vs) => toStringOrEmpty vs.head?
    | v => toStringOrEmpty v
  else if header = "Other Emails" then
    match getItemField item ["emails"] with
    | some (.arr vs) =>
      joinSep "\n" (((vs.drop 1).map (fun v => toStringOrEmpty (some v))).filter (· ≠ ""))
    | _ => ""
  else if header = "Website URL" then
    toStringOrEmpty (getItemField item ["website", "web", "domain"])
  else if header = "Address Street" then
    toStringOrEmpty (getItemField item ["street", "streetAddress", "addressStreet", "address_street"])
  else if header = "Address City" then
    toStringOrEmpty (getItemField item ["city", "addressCity"])
  else if header = "Address State" then
    toStringOrEmpty (getItemField item ["state", "region", "addressState"])
  else if header = "Address Postal Code" then
    toStringOrEmpty (getItemField item ["postalCode", "zip", "addressPostalCode"])
  else if header = "Address Country Code" then
    toStringOrEmpty (getItemField item ["countryCode", "addressCountryCode"])
  else if header = "List of Services" then
    match getItemField item ["categories", "categoryName", "category"] with
    | some (.arr vs) =>
      joinSep " | " ((vs.map (fun v => toStringOrEmpty (some v))).filter (· ≠ ""))
    | v => toStringOrEmpty v
  else if header = "Facebook URL" then toFirstUrl (getItemField item ["facebook", "facebooks"])
  else if header = "LinkedIn URL" then
    toFirstUrl (getItemField item ["linkedIn", "linkedIns", "linkedin", "linkedins"])
  else if header = "Twitter URL" then toFirstUrl (getItemField item ["twitter", "twitters"])
  else if header = "Instagram URL" then
    toFirstUrl (getItemField item ["instagram", "instagrams"])
  else if header = "Youtube URL" then toFirstUrl (getItemField item ["youtube", "youtubes"])
  else if header = "Tiktok URL" then toFirstUrl (getItemField item ["tiktok", "tiktoks"])
  else if header = "Pinterest URL" then
    toFirstUrl (getItemField item ["pinterest", "pinterests"])
  else if header = "Discord URL" then toFirstUrl (getItemField item ["discord", "discords"])
  else if header = "Google My Business URL" then
    toStringOrEmpty (getItemField item ["placeUrl", "googleBusinessUrl", "gmbUrl"])
  else if header = "Google Maps URL" then
    toStringOrEmpty (getItemField item ["url", "googleMapsUrl", "mapsUrl"])
  else if header = "Search Word" then
    toStringOrEmpty (getItemField item ["searchString", "searchTerm", "keyword"])
  else if header = "Date First Added" then nowStr
  else ""

/-- One appended lead row (`run.leadsHeaders.map(...)`). -/
def mapItemRow (leadsHeaders : List String) (item : Item) (uniqueId nowStr : String) :
    List String :=
  leadsHeaders.map (leadCell item uniqueId nowStr)

/-- The dedup filter-and-map over fetched items (`leadRows` in the step
handler): a record whose non-empty key is already in the set is dropped;
a newly-seen non-empty key is added to the set; surviving records map to
output rows in order. -/
def computeLeadRows (leadsHeaders : List String) (nowStr : String) :
    List Item → List String → List (List String) × List String
  | [], seen => ([], seen)
  | item :: rest, seen =>
    let uniqueId := extractUniqueId item
    if uniqueId ≠ "" ∧ uniqueId ∈ seen then
      computeLeadRows leadsHeaders nowStr rest seen
    else
      let seen2 := if uniqueId ≠ "" then seen ++ [uniqueId] else seen
      let r := computeLeadRows leadsHeaders nowStr rest seen2
      (mapItemRow leadsHeaders item uniqueId nowStr :: r.1, r.2)

/-! ### The step handler -/

/-- The five settings-row status writes shared by the drain, skip,
cancelled and failure paths (Scrape-Status, Comments, Status, Scraped,
Push-Status, in source order). -/
def statusCells (run : RunProgress) (rowNumber : Nat)
    (scrapeVal commentsVal statusVal scrapedVal pushVal : String) : List Event :=
  [ .setCell run.settingsSheetName rowNumber run.scrapeStatusCol scrapeVal,
    .setCell run.settingsSheetName rowNumber run.commentsCol commentsVal,
    .setCell run.settingsSheetName rowNumber run.statusCol statusVal,
    .setCell run.settingsSheetName rowNumber run.scrapedCol scrapedVal,
    .setCell run.settingsSheetName rowNumber run.pushStatusCol pushVal ]

/-- Record one row outcome and advance the cursor (the
`run.perRow.push(...)` / `run.currentIndex += 1` pairs). -/
def advanceRow (run : RunProgress) (entry : PerRowEntry) : RunProgress :=
  { run with perRow := run.perRow ++ [entry], currentIndex := run.currentIndex + 1 }

/-- The outcome entry recorded for a drained (cancelled) row. -/
def cancelEntry (rowNumber : Nat) : PerRowEntry :=
  { row := rowNumber, status := .skipped, message := some "Cancelled by user.",
    datasetUrl := none, leads := none }

/-- The cancellation drain loop (up to `cancelBatch` pending rows per
step call).  Returns the updated run, the write trace, and the next time
index. -/
def drainLoop (env : StepEnv) : Nat → RunProgress → Nat → RunProgress × List Event × Nat
  | 0, run, t => (run, [], t)
  | fuel + 1, run, t =>
    if run.currentIndex < run.rowNumbers.length then
      let rowNumber := run.rowNumbers.getD run.currentIndex 0
      let cancelledAt := env.time t
      let evs := statusCells run rowNumber ("FAILED on " ++ cancelledAt)
        "Cancelled by user." "Failed" "N"
        ("0 leads scraped — Started: " ++ cancelledAt ++ ", Finished: " ++ cancelledAt
          ++ " — CANCELLED")
      let run2 := advanceRow { run with skipped := run.skipped + 1 }
        (cancelEntry rowNumber)
      let d := drainLoop env fuel run2 (t + 1)
      (d.1, evs ++ d.2.1, d.2.2)
    else (run, [], t)

/-- `cancelBatch` from the step handler. -/
def cancelBatch : Nat := 10

/-- The guard `body.runId && body.runId !== run.runId` (an empty string
is falsy, so it does not trigger the mismatch error). -/
def runIdMismatch (body : Option String) (runId : String) : Bool :=
  match body with
  | some rid => rid != "" && rid != runId
  | none => false

/-- The shared tail of the per-row protocol (after the success or catch
branch recorded its outcome): advance the cursor, detect completion,
stamp the finish time and clear the run state when done. -/
def finishTail (env : StepEnv) (st : RunState) (run : RunProgress) (t : Nat)
    (evs : List Event) : StepOut :=
  let run2 := { run with currentIndex := run.currentIndex + 1 }
  let done := decide (run2.rowNumbers.length ≤ run2.currentIndex)
  let run3 := if done then { run2 with finishedAt := some (env.time t) } else run2
  { resp := .ok (makeSummary run3 done)
    state := { st with currentRun := if done then none else some run3 }
    events := evs }

/-- The catch branch of the per-row protocol: write the five failure
cells and record a `failed` outcome, then run the shared tail. -/
def catchPath (env : StepEnv) (st : RunState) (run : RunProgress) (rowNumber : Nat)
    (startedAt msg : String) (evsSoFar : List Event) : StepOut :=
  let finishedAt := env.time 1
  let evs := statusCells run rowNumber ("FAILED on " ++ finishedAt) msg "Failed" "N"
    ("0 leads scraped — Started: " ++ startedAt ++ ", Finished: " ++ finishedAt ++ " — "
      ++ msg)
  let run2 := { run with
    perRow := run.perRow ++
      [{ row := rowNumber, status := .failed, message := some msg,
         datasetUrl := none, leads := none }] }
  finishTail env st run2 2 (evsSoFar ++ evs)

/-- The per-row token resolution: the row cell under the configured
token header, falling back to the process-wide `APIFY_TOKEN` value. -/
def resolvedApifyToken (env : StepEnv) (rowDict : List (String × String))
    (tokenHeader : String) : String :=
  let rowToken := jsTrim (getFromRowCaseInsensitive rowDict tokenHeader)
  if rowToken ≠ "" then rowToken else jsTrim env.envApifyToken

/-- The success continuation of the per-row protocol: dedup-filter and
map the fetched records, append the surviving rows, write the six
completion cells, record the `succeeded` outcome, and run the shared
tail. -/
def successPath (env : StepEnv) (st : RunState) (run1 : RunProgress) (rowNumber : Nat)
    (apifyToken datasetId : String) (items : List Item) (evs2 : List Event) : StepOut :=
  let startedAt := env.time 0
  let datasetUrl := "https://api.apify.com/v2/datasets/" ++ datasetId
    ++ "/items?token=" ++ apifyToken
  let out :=
    if run1.leadsSheetName ≠ "" then
      let nowStr := env.time 1
      let lr := computeLeadRows run1.leadsHeaders nowStr items run1.existingUniqueIds
      (lr.1, lr.2,
        if lr.1 ≠ [] then [Event.appendRows run1.leadsSheetName lr.1] else [], 2)
    else ([], run1.existingUniqueIds, ([] : List Event), 1)
  let leadRows := out.1
  let newSeen := out.2.1
  let evsLead := out.2.2.1
  let tNext := out.2.2.2
  let leadsCount := leadRows.length
  let finishedAt := env.time tNext
  let pushStatus := toString leadsCount ++ " leads scraped — Started: "
    ++ startedAt ++ ", Finished: " ++ finishedAt
  let evs3 := evs2 ++ evsLead ++
    [ Event.setCell run1.settingsSheetName rowNumber run1.datasetCol datasetUrl,
      Event.setCell run1.settingsSheetName rowNumber run1.scrapeStatusCol
        ("COMPLETED on " ++ finishedAt),
      Event.setCell run1.settingsSheetName rowNumber run1.commentsCol "",
      Event.setCell run1.settingsSheetName rowNumber run1.statusCol "Completed",
      Event.setCell run1.settingsSheetName rowNumber run1.pushStatusCol pushStatus,
      Event.setCell run1.settingsSheetName rowNumber run1.scrapedCol "Y" ]
  let run2 := { run1 with
    existingUniqueIds := newSeen
    totalLeads := run1.totalLeads + leadsCount
    perRow := run1.perRow ++
      [{ row := rowNumber, status := .succeeded, message := none,
         datasetUrl := some datasetUrl, leads := some leadsCount }] }
  finishTail env st run2 (tNext + 1) evs3

/-- The per-row protocol of the step handler (the cursor points at a
pending row). -/
def processRow (env : StepEnv) (st : RunState) (run : RunProgress) : StepOut :=
  let rowNumber := run.rowNumbers.getD run.currentIndex 0
  let rowDict := rowToDict run.headersAfterEnsure env.rowValues
  let scrapedVal := upperStr (jsTrim (getFromRowCaseInsensitive rowDict "Scraped"))
  if scrapedVal = "Y" then
    let run2 := advanceRow { run with skipped := run.skipped + 1 }
      { row := rowNumber, status := .skipped
        message := some "Already completed (Scraped = Y).", datasetUrl := none
        leads := none }
    { resp := .ok (makeSummary run2 false)
      state := { st with currentRun := some run2 }
      events := [] }
  else
    let apifyToken := resolvedApifyToken env rowDict run.apifyTokenHeader
    let input := buildApifyInputFromRow rowDict
    if apifyToken = "" ∨ hasRequired input = false then
      let skippedAt := env.time 0
      let reason :=
        if apifyToken = "" then
          "Missing Apify token in \x27" ++ run.apifyTokenHeader ++ "\x27."
        else "Missing \x27Search Location\x27 or \x27Sub-Niches\x27."
      let evs := statusCells run rowNumber ("FAILED on " ++ skippedAt) reason "Failed" "N"
        ("0 leads scraped — Started: " ++ skippedAt ++ ", Finished: " ++ skippedAt
          ++ " — SKIPPED — " ++ reason)
      let run2 := advanceRow { run with skipped := run.skipped + 1 }
        { row := rowNumber, status := .skipped, message := some reason
          datasetUrl := none, leads := none }
      { resp := .ok (makeSummary run2 false)
        state := { st with currentRun := some run2 }
        events := evs }
    else
      let run1 := { run with processed := run.processed + 1 }
      let startedAt := env.time 0
      let evs0 :=
        [ Event.setCell run.settingsSheetName rowNumber run.scrapeStatusCol
            ("RUNNING on " ++ startedAt),
          Event.jobStart apifyToken ]
      match env.startResult with
      | .error msg => catchPath env st run1 rowNumber startedAt msg evs0
      | .ok jobId =>
        let st1 := { st with activeRunId := some jobId, activeToken := some apifyToken }
        if jobId = "" then
          catchPath env st1 run1 rowNumber startedAt "Apify run did not return run id" evs0
        else
          let evs1 := evs0 ++ [Event.jobPoll apifyToken jobId]
          let st2 := { st1 with
            cancelRequested := st1.cancelRequested || env.cancelDuringPoll }
          match env.pollResult with
          | .error msg => catchPath env st2 run1 rowNumber startedAt msg evs1
          | .ok (status, datasetId) =>
            let st3 := { st2 with activeRunId := none, activeToken := none }
            if st3.cancelRequested ∨ upperStr status = "ABORTED" then
              let finishedAt := env.time 1
              let evs2 := evs1 ++ statusCells run rowNumber ("FAILED on " ++ finishedAt)
                "Cancelled by user." "Failed" "N"
                ("0 leads scraped — Started: " ++ startedAt ++ ", Finished: "
                  ++ finishedAt ++ " — CANCELLED")
              let run2 := advanceRow run1
                { row := rowNumber, status := .skipped
                  message := some "Cancelled by user.", datasetUrl := none, leads := none }
              { resp := .ok (makeSummary run2 false)
                state := { st3 with currentRun := some run2 }
                events := evs2 }
            else if datasetId = "" then
              catchPath env st3 run1 rowNumber startedAt
                "Apify run did not return defaultDatasetId" evs1
            else
              let evs2 := evs1 ++ [Event.fetchItems apifyToken datasetId]
              match env.itemsResult with
              | .error msg => catchPath env st3 run1 rowNumber startedAt msg evs2
              | .ok items =>
                successPath env st3 run1 rowNumber apifyToken datasetId items evs2

/-- The step handler (`POST` of the step route). -/
def step (env : StepEnv) (body : Option String) (st : RunState) : StepOut :=
  if env.authorized = false then
    { resp := .error .notAuthorized, state := st, events := [] }
  else
    match st.currentRun with
    | none => { resp := .error .noActiveRun, state := st, events := [] }
    | some run =>
      if runIdMismatch body run.runId then
        { resp := .error .runMismatch, state := st, events := [] }
      else if st.cancelRequested then
        let d := drainLoop env cancelBatch run 0
        let run2 := d.1
        let evs := d.2.1
        let t := d.2.2
        let done := decide (run2.rowNumbers.length ≤ run2.currentIndex)
        let run3 := if done then { run2 with finishedAt := some (env.time t) } else run2
        { resp := .ok (makeSummary run3 done)
          state := { st with currentRun := if done then none else some run3 }
          events := evs }
      else if run.rowNumbers.length ≤ run.currentIndex then
        let run2 :=
          if run.finishedAt = none then { run with finishedAt := some (env.time 0) }
          else run
        { resp := .ok (makeSummary run2 true)
          state := { st with currentRun := none }
          events := [] }
      else processRow env st run

/-- The cancel handler: set the cancellation flag; best-effort abort of
the in-flight job when both its id and token are non-empty (JS
truthiness). -/
def cancel (st : RunState) : RunState × List Event :=
  let st2 := { st with cancelRequested := true }
  match st.activeRunId, st.activeToken with
  | some jobId, some token =>
    if jobId ≠ "" ∧ token ≠ "" then (st2, [.abortJob token jobId])
    else (st2, [])
  | _, _ => (st2, [])

/-! ### The start handler -/

/-- Resolved request fields of the start handler, after the
`body.x ?? env-default ?? constant` coalescing of the source (which is
outside this model) and before trimming.  Row bounds are integers
(`Math.floor` of an integer is itself). -/
structure StartBody where
  spreadsheetId : String
  settingsSheetName : String
  leadsSheetName : String
  datasetUrlHeader : String
  apifyTokenHeader : String
  startRow : Int
  endRow : Int

/-- External reads performed by the start handler: the settings header
row, the leads header row, and the cells of the leads tab's Unique ID
column from row 2 down (used only when that column is found). -/
structure StartEnv where
  authorized : Bool
  settingsHeaders : List String
  leadsHeaders : List String
  uniqueIdColumn : List String
  newRunId : String
  timeStr : String

/-- Start handler errors. -/
inductive StartErr where
  | notAuthorized
  | missingLeadsHeaders
deriving Repr, DecidableEq

/-- Result of a successful start call: the new process state, the
initial summary, and the settings header row after the six
`ensureHeader` calls. -/
structure StartOut where
  state : RunState
  summary : Summary
  headersAfterEnsure : List String

/-- The dedup-set load of the start handler: trimmed non-empty cells of
the Unique ID column. -/
def loadUniqueIds (cells : List String) : List String :=
  (cells.map jsTrim).filter (· ≠ "")

/-- The start handler (`POST` of the start route). -/
def start (env : StartEnv) (body : StartBody) : Except StartErr StartOut :=
  if env.authorized = false then .error .notAuthorized
  else
    let spreadsheetId := jsTrim body.spreadsheetId
    let settingsSheetName := jsTrim body.settingsSheetName
    let leadsSheetName := jsTrim body.leadsSheetName
    let datasetUrlHeader := jsTrim body.datasetUrlHeader
    let apifyTokenHeader := jsTrim body.apifyTokenHeader
    let startRowN : Nat := (max 2 body.startRow).toNat
    let endRowN : Nat := (max (startRowN : Int) body.endRow).toNat
    let er := ensureHeaders (startHeaderNames datasetUrlHeader) env.settingsHeaders
    let cols := er.1
    let headersAfterEnsure := er.2
    let leadsHeaders := if leadsSheetName ≠ "" then env.leadsHeaders else []
    if leadsSheetName ≠ "" ∧ leadsHeaders = [] then .error .missingLeadsHeaders
    else
      let existingUniqueIds :=
        if leadsSheetName ≠ "" then
          match findHeaderIndexCaseInsensitive leadsHeaders "Unique ID" with
          | some _ => loadUniqueIds env.uniqueIdColumn
          | none => []
        else []
      let rowNumbers := List.range' startRowN (endRowN + 1 - startRowN)
      let run : RunProgress :=
        { runId := env.newRunId
          spreadsheetId := spreadsheetId
          settingsSheetName := settingsSheetName
          leadsSheetName := leadsSheetName
          startRow := startRowN
          endRow := endRowN
          rowNumbers := rowNumbers
          currentIndex := 0
          processed := 0
          skipped := 0
          totalLeads := 0
          startedAt := env.timeStr
          finishedAt := none
          perRow := []
          headersAfterEnsure := headersAfterEnsure
          leadsHeaders := leadsHeaders
          existingUniqueIds := existingUniqueIds
          datasetCol := cols.getD 0 0
          scrapedCol := cols.getD 1 0
          statusCol := cols.getD 2 0
          commentsCol := cols.getD 3 0
          scrapeStatusCol := cols.getD 4 0
          pushStatusCol := cols.getD 5 0
          apifyTokenHeader := apifyTokenHeader
          datasetUrlHeader := datasetUrlHeader }
      .ok { state := { cancelRequested := false, activeRunId := none,
                       activeToken := none, currentRun := some run }
            summary := makeSummary run false
            headersAfterEnsure := headersAfterEnsure }

/-! ### Claim C6 and C7: opening-hours normalization -/

/-- C6, counterexample: the day-plus-hours input with day `"Mon"` and
hours `"9 to 5 PM"` is normalized to `"Monday - 9 PM to 5 PM"` — the
start time inherits the end time's `PM` — not to the
`"Monday - 9 AM to 5 PM"` the claim states. -/
theorem c6_counterexample :
    toOpeningHoursText
        [("openingHours", JVal.arr [JVal.obj [("day", JVal.s "Mon"), ("hours", JVal.s "9 to 5 PM")]])]
      = "Monday - 9 PM to 5 PM" ∧
    ("Monday - 9 PM to 5 PM" : String) ≠ "Monday - 9 AM to 5 PM" :=
  ⟨rfl, by decide⟩

/-- C6, amended: opening-hours normalization maps the day-plus-hours
input with day `"Mon"` and hours `"9 to 5 PM"` to
`"Monday - 9 PM to 5 PM"` (the meridiem-less start time inherits the end
time's meridiem), and the input with day `"Tue"` and hours `"Closed"` to
`"Tuesday - Closed"`. -/
theorem c6_opening_hours_normalization :
    toOpeningHoursText
        [("openingHours", JVal.arr [JVal.obj [("day", JVal.s "Mon"), ("hours", JVal.s "9 to 5 PM")]])]
      = "Monday - 9 PM to 5 PM" ∧
    toOpeningHoursText
        [("openingHours", JVal.arr [JVal.obj [("day", JVal.s "Tue"), ("hours", JVal.s "Closed")]])]
      = "Tuesday - Closed" :=
  ⟨rfl, rfl⟩

/-- C7: in a time range, an end time that parses without a meridiem gets
no inherited meridiem and is rendered in the literal `hour:minute AM`
form; a start time without a meridiem uses the non-empty fallback (with
`:00` minutes dropped); a time carrying its own meridiem keeps it
whatever the fallback; and a two-part `S to E` range feeds the end no
fallback while the start gets the end's extracted meridiem. -/
theorem c7_time_range_meridiem_rule :
    (∀ raw h m, parseTime (upperStr (cleanSpaces raw)) = some (h, m, "") →
      normalizeTime raw "" = s!"{h}:{m} AM")
  ∧ (∀ raw h m M, parseTime (upperStr (cleanSpaces raw)) = some (h, m, "") → M ≠ "" →
      normalizeTime raw M = (if m = "00" then s!"{h} {M}" else s!"{h}:{m} {M}"))
  ∧ (∀ raw h m M fb, parseTime (upperStr (cleanSpaces raw)) = some (h, m, M) → M ≠ "" →
      normalizeTime raw fb = (if m = "00" then s!"{h} {M}" else s!"{h}:{m} {M}"))
  ∧ (∀ r p q, splitOnTo r = [p, q] →
      formatRange r =
        normalizeTime (jsTrim p) (getMeridiem (jsTrim q)) ++ " to " ++ normalizeTime (jsTrim q)) := by
  refine ⟨?_, ?_, ?_, ?_⟩
  · intro raw h m hp
    simp [normalizeTime, hp]
  · intro raw h m M hp hM
    simp [normalizeTime, hp, hM]
  · intro raw h m M fb hp hM
    simp [normalizeTime, hp, hM]
  · intro r p q hsplit
    simp only [formatRange, hsplit]

/-- C7 witness: the rule instantiated at `"5:30"` (end missing its
meridiem), `"9"` with fallback `"PM"`, `"7:15 pm"` with fallback `"AM"`,
and the range `"9 to 5 PM"`. -/
theorem c7_witness :
    normalizeTime "5:30" "" = "5:30 AM" ∧
    normalizeTime "9" "PM" = "9 PM" ∧
    normalizeTime "7:15 pm" "AM" = "7:15 PM" ∧
    formatRange "9 to 5 PM" =
      normalizeTime (jsTrim "9") (getMeridiem (jsTrim "5 PM")) ++ " to "
        ++ normalizeTime (jsTrim "5 PM") := by
  refine ⟨?_, ?_, ?_, ?_⟩
  · rw [c7_time_range_meridiem_rule.1 "5:30" 5 "30" (by decide)]
    decide
  · rw [c7_time_range_meridiem_rule.2.1 "9" 9 "00" "PM" (by decide) (by decide)]
    decide
  · rw [c7_time_range_meridiem_rule.2.2.1 "7:15 pm" 7 "15" "PM" "AM" (by decide) (by decide)]
    decide
  · exact c7_time_range_meridiem_rule.2.2.2 "9 to 5 PM" "9" "5 PM" (by decide)

/-! ### Claim C9: empty natural keys bypass deduplication -/

/-- C9: a fetched record whose extracted natural key is empty is never
checked against the dedup set and never inserted into it, and a result
set consisting of key-less records is appended in full with the set
unchanged. -/
theorem c9_empty_keys_bypass_dedup :
    (∀ headers nowStr item rest seen, extractUniqueId item = "" →
      computeLeadRows headers nowStr (item :: rest) seen =
        (mapItemRow headers item "" nowStr :: (computeLeadRows headers nowStr rest seen).1,
         (computeLeadRows headers nowStr rest seen).2))
  ∧ (∀ headers nowStr items seen, (∀ item ∈ items, extractUniqueId item = "") →
      computeLeadRows headers nowStr items seen =
        (items.map (fun it => mapItemRow headers it "" nowStr), seen)) := by
  constructor
  · intro headers nowStr item rest seen h
    simp [computeLeadRows, h]
  · intro headers nowStr items
    induction items with
    | nil => intro seen _; simp [computeLeadRows]
    | cons item rest ih =>
      intro seen h
      have hhd : extractUniqueId item = "" := h item (by simp)
      have htl : ∀ it ∈ rest, extractUniqueId it = "" := fun it hit => h it (by simp [hit])
      simp [computeLeadRows, hhd, ih seen htl]

/-- C9 witness: two key-less records and a non-empty dedup set; both
records are appended and the set is unchanged. -/
theorem c9_witness :
    extractUniqueId [("title", JVal.s "A")] = "" ∧
    computeLeadRows ["Unique ID", "Business Name"] "T"
        [[("title", JVal.s "A")], [("title", JVal.s "B")]] ["abc"] =
      ([["", "A"], ["", "B"]], ["abc"]) := by
  constructor
  · decide
  · rw [c9_empty_keys_bypass_dedup.2 ["Unique ID", "Business Name"] "T"
      [[("title", JVal.s "A")], [("title", JVal.s "B")]] ["abc"] (by decide)]
    rfl

/-! ### Claim C8: header setup is idempotent -/

/-- Scanning an appended list when the first part has no match. -/
lemma findIdxFrom_append_of_none (p : String → Bool) :
    ∀ (l t : List String), findIdxFrom p l = none →
      findIdxFrom p (l ++ t) = (findIdxFrom p t).map (· + l.length) := by
  intro l
  induction l with
  | nil =>
    intro t _
    cases hft : findIdxFrom p t <;> simp [hft]
  | cons h rest ih =>
    intro t hnone
    simp only [findIdxFrom] at hnone
    by_cases hp : p h
    · rw [if_pos hp] at hnone
      exact absurd hnone (by simp)
    · rw [if_neg hp] at hnone
      have hrest : findIdxFrom p rest = none := by
        rcases hfr : findIdxFrom p rest with _ | j
        · rfl
        · rw [hfr] at hnone
          simp at hnone
      rw [List.cons_append]
      simp only [findIdxFrom]
      rw [if_neg hp, ih t hrest]
      cases findIdxFrom p t <;> (simp [List.length_cons]; try omega)

/-- Scanning an appended list keeps an existing first match. -/
lemma findIdxFrom_append_of_some (p : String → Bool) :
    ∀ (l t : List String) (i : Nat), findIdxFrom p l = some i →
      findIdxFrom p (l ++ t) = some i := by
  intro l
  induction l with
  | nil => intro t i h; simp [findIdxFrom] at h
  | cons h rest ih =>
    intro t i hsome
    simp only [findIdxFrom] at hsome
    rw [List.cons_append]
    simp only [findIdxFrom]
    by_cases hp : p h
    · rw [if_pos hp] at hsome ⊢
      exact hsome
    · rw [if_neg hp] at hsome ⊢
      rcases hfr : findIdxFrom p rest with _ | j
      · rw [hfr] at hsome
        simp at hsome
      · rw [hfr] at hsome
        rw [ih t j hfr]
        exact hsome

/-- Writing at the first free column of the header row appends. -/
lemma setHeaderCell_append :
    ∀ (l : List String) (v : String), setHeaderCell l (l.length + 1) v = l ++ [v] := by
  intro l
  induction l with
  | nil => intro v; simp [setHeaderCell]
  | cons h rest ih =>
    intro v
    simp [setHeaderCell, List.length_cons, ih v]

/-- `ensureHeader` only appends to the header row. -/
lemma ensureHeader_extend (h : List String) (n : String) :
    ∃ t, (ensureHeader h n).2 = h ++ t := by
  unfold ensureHeader
  rcases hf : findHeaderIndex h n with _ | i
  · exact ⟨[n], by simp [setHeaderCell_append]⟩
  · exact ⟨[], by simp⟩

/-- A header already present is returned unchanged with its column. -/
lemma ensureHeader_found (h : List String) (n : String) (i : Nat)
    (hf : findHeaderIndex h n = some i) : ensureHeader h n = (i + 1, h) := by
  unfold ensureHeader
  rw [hf]

/-- After `ensureHeader`, the header is findable and its index matches
the returned column. -/
lemma ensureHeader_find (h : List String) (n : String) :
    ∃ j, findHeaderIndex (ensureHeader h n).2 n = some j ∧ (ensureHeader h n).1 = j + 1 := by
  unfold ensureHeader
  rcases hf : findHeaderIndex h n with _ | i
  · refine ⟨h.length, ?_, by simp⟩
    simp only [setHeaderCell_append]
    unfold findHeaderIndex at hf ⊢
    rw [findIdxFrom_append_of_none _ h [n] hf]
    simp [findIdxFrom]
  · exact ⟨i, by simpa using hf, by simp⟩

/-- `ensureHeaders` only appends to the header row. -/
lemma ensureHeaders_extend :
    ∀ (ns : List String) (h : List String), ∃ t, (ensureHeaders ns h).2 = h ++ t := by
  intro ns
  induction ns with
  | nil => intro h; exact ⟨[], by simp [ensureHeaders]⟩
  | cons n rest ih =>
    intro h
    obtain ⟨t1, ht1⟩ := ensureHeader_extend h n
    obtain ⟨t2, ht2⟩ := ih (ensureHeader h n).2
    refine ⟨t1 ++ t2, ?_⟩
    show (ensureHeaders (n :: rest) h).2 = h ++ (t1 ++ t2)
    simp only [ensureHeaders]
    rw [ht2, ht1, List.append_assoc]

/-- C8: header setup is idempotent.  Re-ensuring a header that the
previous `ensureHeader` call resolved returns the same column and leaves
the header row unchanged, and the start handler's whole `ensureHeader`
call sequence, run a second time over the header row produced by the
first, returns the same six columns and appends nothing. -/
theorem c8_ensure_header_idempotent :
    (∀ headers name, ensureHeader (ensureHeader headers name).2 name = ensureHeader headers name)
  ∧ (∀ names headers,
      ensureHeaders names (ensureHeaders names headers).2 = ensureHeaders names headers) := by
  have hsingle : ∀ headers name,
      ensureHeader (ensureHeader headers name).2 name = ensureHeader headers name := by
    intro headers name
    obtain ⟨j, hfind, hcol⟩ := ensureHeader_find headers name
    rw [ensureHeader_found _ _ _ hfind, ← hcol]
  refine ⟨hsingle, ?_⟩
  intro names
  induction names with
  | nil => intro headers; simp [ensureHeaders]
  | cons n rest ih =>
    intro headers
    have hstep : ensureHeader (ensureHeaders (n :: rest) headers).2 n =
        ((ensureHeader headers n).1, (ensureHeaders (n :: rest) headers).2) := by
      obtain ⟨j, hfind, hcol⟩ := ensureHeader_find headers n
      obtain ⟨t, ht⟩ := ensureHeaders_extend rest (ensureHeader headers n).2
      have hfind2 : findHeaderIndex (ensureHeaders (n :: rest) headers).2 n = some j := by
        show findHeaderIndex (ensureHeaders (n :: rest) headers).2 n = some j
        have : (ensureHeaders (n :: rest) headers).2 =
            (ensureHeader headers n).2 ++ t := by
          simp [ensureHeaders, ht]
        rw [this]
        exact findIdxFrom_append_of_some _ _ _ _ hfind
      rw [ensureHeader_found _ _ _ hfind2, hcol]
    show ensureHeaders (n :: rest) (ensureHeaders (n :: rest) headers).2 =
      ensureHeaders (n :: rest) headers
    simp only [ensureHeaders] at hstep ⊢
    rw [hstep]
    simp only []
    rw [ih (ensureHeader headers n).2]

/-! ### Claim C2: deduplication -/

/-- The head surviving `dropWhile` fails the predicate. -/
lemma dropWhile_head_false {α : Type} (p : α → Bool) :
    ∀ (l : List α) (h : α) (t : List α), l.dropWhile p = h :: t → p h = false := by
  intro l
  induction l with
  | nil => intro h t hl; simp [List.dropWhile] at hl
  | cons a rest ih =>
    intro h t hl
    by_cases hp : p a
    · rw [List.dropWhile_cons, if_pos hp] at hl
      exact ih h t hl
    · rw [List.dropWhile_cons, if_neg hp] at hl
      cases hl
      simpa using hp

/-- `dropWhile` over a snoc whose last element fails the predicate. -/
lemma dropWhile_append_singleton {α : Type} (p : α → Bool) (x : α) (hx : p x = false) :
    ∀ l : List α, (l ++ [x]).dropWhile p = l.dropWhile p ++ [x] := by
  intro l
  induction l with
  | nil => simp [List.dropWhile, hx]
  | cons a rest ih =>
    by_cases hp : p a
    · simp [List.dropWhile_cons, hp, ih]
    · simp [List.dropWhile_cons, hp]

/-- `dropWhile` is idempotent. -/
lemma dropWhile_idem {α : Type} (p : α → Bool) (l : List α) :
    (l.dropWhile p).dropWhile p = l.dropWhile p := by
  rcases hd : l.dropWhile p with _ | ⟨h, t⟩
  · simp
  · have hh := dropWhile_head_false p l h t hd
    rw [List.dropWhile_cons, if_neg (by simp [hh])]

/-- Char-list trimming is idempotent. -/
lemma trimChars_idem (l : List Char) : trimChars (trimChars l) = trimChars l := by
  rcases ha : l.dropWhile isWS with _ | ⟨h, t⟩
  · unfold trimChars
    rw [ha]
    simp
  · have hh : isWS h = false := dropWhile_head_false isWS l h t ha
    have hb := dropWhile_append_singleton isWS h hh t.reverse
    have h1 : trimChars l = h :: (t.reverse.dropWhile isWS).reverse := by
      unfold trimChars
      rw [ha, List.reverse_cons, hb, List.reverse_append]
      simp
    rw [h1]
    unfold trimChars
    rw [List.dropWhile_cons, if_neg (by simp [hh]), List.reverse_cons, List.reverse_reverse,
        dropWhile_append_singleton isWS h hh, dropWhile_idem, List.reverse_append]
    simp

/-- JS `trim` is idempotent. -/
lemma jsTrim_idem (s : String) : jsTrim (jsTrim s) = jsTrim s := by
  show String.mk (trimChars (String.mk (trimChars s.data)).data)
    = String.mk (trimChars s.data)
  rw [show (String.mk (trimChars s.data)).data = trimChars s.data from rfl, trimChars_idem]

/-- Natural keys are trim-fixed. -/
lemma extractUniqueId_trim_fixed (item : Item) :
    jsTrim (extractUniqueId item) = extractUniqueId item := by
  unfold extractUniqueId
  exact jsTrim_idem _

/-- The Unique ID cell of a mapped lead row holds the record's key. -/
lemma mapItemRow_key (headers : List String) (item : Item) (uid nowStr : String)
    (j : Nat) (hj : j < headers.length) (hhdr : jsTrim (headers.getD j "") = "Unique ID") :
    (mapItemRow headers item uid nowStr).getD j "" = uid := by
  unfold mapItemRow
  rw [List.getD_eq_getElem?_getD, List.getElem?_map, List.getElem?_eq_getElem hj]
  rw [List.getD_eq_getElem _ _ hj] at hhdr
  simp only [Option.map_some', Option.getD_some, leadCell, hhdr]
  simp

/-- Membership in the dedup set survives processing further items. -/
lemma computeLeadRows_mono (headers : List String) (nowStr : String) :
    ∀ (items : List Item) (seen : List String) (k : String), k ∈ seen →
      k ∈ (computeLeadRows headers nowStr items seen).2 := by
  intro items
  induction items with
  | nil => intro seen k hk; simpa [computeLeadRows] using hk
  | cons item rest ih =>
    intro seen k hk
    by_cases hdup : extractUniqueId item ≠ "" ∧ extractUniqueId item ∈ seen
    · simp only [computeLeadRows, if_pos hdup]
      exact ih seen k hk
    · simp only [computeLeadRows, if_neg hdup]
      by_cases hne : extractUniqueId item ≠ ""
      · simp only [if_pos hne]
        exact ih _ k (by simp [hk])
      · simp only [if_neg hne]
        exact ih seen k hk

/-- A key already in the dedup set never appears in the Unique ID cell
of an output row. -/
lemma computeLeadRows_excl (headers : List String) (nowStr : String) (j : Nat)
    (hj : j < headers.length) (hhdr : jsTrim (headers.getD j "") = "Unique ID") :
    ∀ (items : List Item) (seen : List String) (k : String), k ∈ seen → k ≠ "" →
      ∀ row ∈ (computeLeadRows headers nowStr items seen).1, row.getD j "" ≠ k := by
  intro items
  induction items with
  | nil => intro seen k hk hne row hrow; simp [computeLeadRows] at hrow
  | cons item rest ih =>
    intro seen k hk hne row hrow
    by_cases hdup : extractUniqueId item ≠ "" ∧ extractUniqueId item ∈ seen
    · rw [show computeLeadRows headers nowStr (item :: rest) seen
          = computeLeadRows headers nowStr rest seen by
            simp only [computeLeadRows, if_pos hdup]] at hrow
      exact ih seen k hk hne row hrow
    · simp only [computeLeadRows, if_neg hdup] at hrow
      rcases List.mem_cons.mp hrow with hhead | htail
      · subst hhead
        rw [mapItemRow_key headers item _ nowStr j hj hhdr]
        by_cases huid : extractUniqueId item = ""
        · rw [huid]
          exact fun h => hne h.symm
        · intro heq
          exact hdup ⟨huid, heq ▸ hk⟩
      · by_cases huid : extractUniqueId item ≠ ""
        · rw [if_pos huid] at htail
          exact ih _ k (by simp [hk]) hne row htail
        · rw [if_neg huid] at htail
          exact ih seen k hk hne row htail

/-- Every non-empty key of an output row ends up in the dedup set. -/
lemma computeLeadRows_inserted (headers : List String) (nowStr : String) (j : Nat)
    (hj : j < headers.length) (hhdr : jsTrim (headers.getD j "") = "Unique ID") :
    ∀ (items : List Item) (seen : List String),
      ∀ row ∈ (computeLeadRows headers nowStr items seen).1, row.getD j "" ≠ "" →
        row.getD j "" ∈ (computeLeadRows headers nowStr items seen).2 := by
  intro items
  induction items with
  | nil => intro seen row hrow; simp [computeLeadRows] at hrow
  | cons item rest ih =>
    intro seen row hrow hne
    by_cases hdup : extractUniqueId item ≠ "" ∧ extractUniqueId item ∈ seen
    · simp only [computeLeadRows, if_pos hdup] at hrow ⊢
      exact ih seen row hrow hne
    · simp only [computeLeadRows, if_neg hdup] at hrow ⊢
      rcases List.mem_cons.mp hrow with hhead | htail
      · subst hhead
        rw [mapItemRow_key headers item _ nowStr j hj hhdr] at hne ⊢
        rw [if_pos hne]
        exact computeLeadRows_mono headers nowStr rest _ _ (by simp)
      · by_cases huid : extractUniqueId item ≠ ""
        · rw [if_pos huid] at htail ⊢
          exact ih _ row htail hne
        · rw [if_neg huid] at htail ⊢
          exact ih seen row htail hne

/-- The Unique ID cells of output rows are trim-fixed. -/
lemma computeLeadRows_keys_trimmed (headers : List String) (nowStr : String) (j : Nat)
    (hj : j < headers.length) (hhdr : jsTrim (headers.getD j "") = "Unique ID") :
    ∀ (items : List Item) (seen : List String),
      ∀ row ∈ (computeLeadRows headers nowStr items seen).1,
        jsTrim (row.getD j "") = row.getD j "" := by
  intro items
  induction items with
  | nil => intro seen row hrow; simp [computeLeadRows] at hrow
  | cons item rest ih =>
    intro seen row hrow
    by_cases hdup : extractUniqueId item ≠ "" ∧ extractUniqueId item ∈ seen
    · simp only [computeLeadRows, if_pos hdup] at hrow
      exact ih seen row hrow
    · simp only [computeLeadRows, if_neg hdup] at hrow
      rcases List.mem_cons.mp hrow with hhead | htail
      · subst hhead
        rw [mapItemRow_key headers item _ nowStr j hj hhdr]
        exact extractUniqueId_trim_fixed item
      · by_cases huid : extractUniqueId item ≠ ""
        · rw [if_pos huid] at htail
          exact ih _ row htail
        · rw [if_neg huid] at htail
          exact ih seen row htail

/-- No non-empty key appears in two output rows. -/
lemma computeLeadRows_nodup (headers : List String) (nowStr : String) (j : Nat)
    (hj : j < headers.length) (hhdr : jsTrim (headers.getD j "") = "Unique ID") :
    ∀ (items : List Item) (seen : List String),
      List.Nodup (((computeLeadRows headers nowStr items seen).1.map
        (fun row => row.getD j "")).filter (· ≠ "")) := by
  intro items
  induction items with
  | nil => intro seen; simp [computeLeadRows]
  | cons item rest ih =>
    intro seen
    by_cases hdup : extractUniqueId item ≠ "" ∧ extractUniqueId item ∈ seen
    · simp only [computeLeadRows, if_pos hdup]
      exact ih seen
    · simp only [computeLeadRows, if_neg hdup]
      rw [List.map_cons, mapItemRow_key headers item _ nowStr j hj hhdr]
      by_cases huid : extractUniqueId item ≠ ""
      · rw [if_pos huid, List.filter_cons, if_pos (by simpa using huid)]
        refine List.nodup_cons.mpr ⟨?_, ih _⟩
        intro hmem
        have hrow := List.mem_filter.mp hmem
        obtain ⟨row, hrowmem, hroweq⟩ := List.mem_map.mp hrow.1
        exact computeLeadRows_excl headers nowStr j hj hhdr rest
          (seen ++ [extractUniqueId item]) (extractUniqueId item)
          (by simp) huid row hrowmem hroweq
      · rw [if_neg huid, List.filter_cons, if_neg (by simpa using huid)]
        exact ih seen

/-- C2: within a run, a fetched record whose non-empty key is already in
the dedup set (loaded at start or added earlier in the run) is excluded
from the appended rows; the set only grows; every non-empty appended key
is inserted into the set; no key is appended twice within one run.
Across two runs over the same leads tab, a key appended by the first run
is loaded into the second run's dedup set from the Unique ID column and
is therefore never appended again. -/
theorem c2_dedup_never_reappends :
    (∀ (headers : List String) (nowStr : String) (j : Nat) (items : List Item)
        (seen : List String),
      j < headers.length → jsTrim (headers.getD j "") = "Unique ID" →
      ((∀ k, k ∈ seen → k ≠ "" →
          ∀ row ∈ (computeLeadRows headers nowStr items seen).1, row.getD j "" ≠ k)
        ∧ (∀ k, k ∈ seen → k ∈ (computeLeadRows headers nowStr items seen).2)
        ∧ (∀ row ∈ (computeLeadRows headers nowStr items seen).1, row.getD j "" ≠ "" →
            row.getD j "" ∈ (computeLeadRows headers nowStr items seen).2)
        ∧ List.Nodup (((computeLeadRows headers nowStr items seen).1.map
            (fun row => row.getD j "")).filter (· ≠ ""))))
  ∧ (∀ (headers : List String) (nowStr : String) (j : Nat) (items : List Item)
        (seen priorCells : List String) (headers2 : List String) (nowStr2 : String)
        (j2 : Nat) (items2 : List Item) (k : String),
      j < headers.length → jsTrim (headers.getD j "") = "Unique ID" →
      j2 < headers2.length → jsTrim (headers2.getD j2 "") = "Unique ID" →
      k ≠ "" →
      k ∈ (computeLeadRows headers nowStr items seen).1.map (fun row => row.getD j "") →
      ∀ row2 ∈ (computeLeadRows headers2 nowStr2 items2
          (loadUniqueIds (priorCells ++ (computeLeadRows headers nowStr items seen).1.map
            (fun row => row.getD j "")))).1,
        row2.getD j2 "" ≠ k) := by
  constructor
  · intro headers nowStr j items seen hj hhdr
    exact ⟨fun k hk hne => computeLeadRows_excl headers nowStr j hj hhdr items seen k hk hne,
      fun k hk => computeLeadRows_mono headers nowStr items seen k hk,
      fun row hrow hne => computeLeadRows_inserted headers nowStr j hj hhdr items seen row hrow hne,
      computeLeadRows_nodup headers nowStr j hj hhdr items seen⟩
  · intro headers nowStr j items seen priorCells headers2 nowStr2 j2 items2 k
      hj hhdr hj2 hhdr2 hne hkcol
    have hktrim : jsTrim k = k := by
      obtain ⟨row, hrowmem, hroweq⟩ := List.mem_map.mp hkcol
      rw [← hroweq]
      exact computeLeadRows_keys_trimmed headers nowStr j hj hhdr items seen row hrowmem
    have hkload : k ∈ loadUniqueIds (priorCells
        ++ (computeLeadRows headers nowStr items seen).1.map (fun row => row.getD j "")) := by
      unfold loadUniqueIds
      refine List.mem_filter.mpr ⟨?_, by simpa using hne⟩
      refine List.mem_map.mpr ⟨k, ?_, hktrim⟩
      exact List.mem_append.mpr (Or.inr hkcol)
    exact fun row2 hrow2 => computeLeadRows_excl headers2 nowStr2 j2 hj2 hhdr2 items2 _
      k hkload hne row2 hrow2

/-- C2 witness: a leads tab whose Unique ID column is column 0, a
preloaded key `"abc"`, and three fetched records with keys `"abc"`,
`"xyz"`, `"xyz"`: the facts instantiate, and concretely only one `"xyz"`
row survives. -/
theorem c2_witness :
    (0 : Nat) < (["Unique ID"] : List String).length ∧
    jsTrim ((["Unique ID"] : List String).getD 0 "") = "Unique ID" ∧
    ((∀ k, k ∈ (["abc"] : List String) → k ≠ "" →
        ∀ row ∈ (computeLeadRows ["Unique ID"] "T"
            [[("placeId", JVal.s "abc")], [("placeId", JVal.s "xyz")],
              [("placeId", JVal.s "xyz")]] ["abc"]).1, row.getD 0 "" ≠ k)
      ∧ (∀ k, k ∈ (["abc"] : List String) →
          k ∈ (computeLeadRows ["Unique ID"] "T"
            [[("placeId", JVal.s "abc")], [("placeId", JVal.s "xyz")],
              [("placeId", JVal.s "xyz")]] ["abc"]).2)
      ∧ (∀ row ∈ (computeLeadRows ["Unique ID"] "T"
            [[("placeId", JVal.s "abc")], [("placeId", JVal.s "xyz")],
              [("placeId", JVal.s "xyz")]] ["abc"]).1, row.getD 0 "" ≠ "" →
            row.getD 0 "" ∈ (computeLeadRows ["Unique ID"] "T"
              [[("placeId", JVal.s "abc")], [("placeId", JVal.s "xyz")],
                [("placeId", JVal.s "xyz")]] ["abc"]).2)
      ∧ List.Nodup (((computeLeadRows ["Unique ID"] "T"
            [[("placeId", JVal.s "abc")], [("placeId", JVal.s "xyz")],
              [("placeId", JVal.s "xyz")]] ["abc"]).1.map
          (fun row => row.getD 0 "")).filter (· ≠ ""))) ∧
    (computeLeadRows ["Unique ID"] "T"
        [[("placeId", JVal.s "abc")], [("placeId", JVal.s "xyz")],
          [("placeId", JVal.s "xyz")]] ["abc"]).1 = [["xyz"]] :=
  ⟨by decide, by decide,
    c2_dedup_never_reappends.1 ["Unique ID"] "T" 0
      [[("placeId", JVal.s "abc")], [("placeId", JVal.s "xyz")],
        [("placeId", JVal.s "xyz")]] ["abc"] (by decide) (by decide),
    by rfl⟩

/-! ### Claims C4 and C5: skip branch and caller-protocol errors -/

/-- C4: when the active row's Scraped cell (case-insensitive header
lookup, trimmed, case-insensitive value comparison) is `"Y"`, the step
records a skipped outcome with the already-completed message, advances
the cursor by one, and performs no external calls at all (the event
trace is empty). -/
theorem c4_scraped_y_skips_without_calls :
    ∀ (env : StepEnv) (body : Option String) (st : RunState) (run : RunProgress),
      env.authorized = true →
      st.currentRun = some run →
      runIdMismatch body run.runId = false →
      st.cancelRequested = false →
      run.currentIndex < run.rowNumbers.length →
      upperStr (jsTrim (getFromRowCaseInsensitive
        (rowToDict run.headersAfterEnsure env.rowValues) "Scraped")) = "Y" →
      step env body st =
        { resp := .ok (makeSummary (advanceRow { run with skipped := run.skipped + 1 }
            { row := run.rowNumbers.getD run.currentIndex 0, status := .skipped
              message := some "Already completed (Scraped = Y).", datasetUrl := none
              leads := none }) false)
          state := { st with currentRun := some (advanceRow
            { run with skipped := run.skipped + 1 }
            { row := run.rowNumbers.getD run.currentIndex 0, status := .skipped
              message := some "Already completed (Scraped = Y).", datasetUrl := none
              leads := none }) }
          events := [] } := by
  intro env body st run hauth hrun hmm hcancel hidx hy
  simp [step, processRow, hauth, hrun, hmm, hcancel, hy, Nat.not_le.mpr hidx]

/-- C4 witness: a one-row run whose settings row has Scraped = `"y"`. -/
theorem c4_witness :
    (let run : RunProgress :=
      { runId := "r1", spreadsheetId := "ss", settingsSheetName := "S", leadsSheetName := ""
        startRow := 2, endRow := 2, rowNumbers := [2], currentIndex := 0, processed := 0
        skipped := 0, totalLeads := 0, startedAt := "T", finishedAt := none, perRow := []
        headersAfterEnsure := ["Scraped"], leadsHeaders := [], existingUniqueIds := []
        datasetCol := 2, scrapedCol := 1, statusCol := 3, commentsCol := 4
        scrapeStatusCol := 5, pushStatusCol := 6, apifyTokenHeader := "Apify API Key"
        datasetUrlHeader := "Dataset URL" }
    let env : StepEnv :=
      { authorized := true, rowValues := ["y"], envApifyToken := "", startResult := .ok "j"
        pollResult := .ok ("SUCCEEDED", "d"), cancelDuringPoll := false
        itemsResult := .ok [], time := fun _ => "T" }
    let st : RunState :=
      { cancelRequested := false, activeRunId := none, activeToken := none
        currentRun := some run }
    step env none st =
      { resp := .ok (makeSummary (advanceRow { run with skipped := run.skipped + 1 }
          { row := run.rowNumbers.getD run.currentIndex 0, status := .skipped
            message := some "Already completed (Scraped = Y).", datasetUrl := none
            leads := none }) false)
        state := { st with currentRun := some (advanceRow
          { run with skipped := run.skipped + 1 }
          { row := run.rowNumbers.getD run.currentIndex 0, status := .skipped
            message := some "Already completed (Scraped = Y).", datasetUrl := none
            leads := none }) }
        events := [] }) := by
  exact c4_scraped_y_skips_without_calls _ none _ _ rfl rfl (by decide) rfl
    (by decide) (by decide)

/-- C5, amended: with valid credentials, a step call with no active run
fails with `NoActiveRun` leaving the state unchanged with no external
effects, and a step call carrying a non-empty `runId` different from the
active run's id fails with `RunMismatch` leaving the state unchanged
with no external effects.  (An empty-string `runId` is falsy and is
treated as not provided.) -/
theorem c5_caller_protocol_errors :
    (∀ (env : StepEnv) (body : Option String) (st : RunState),
      env.authorized = true → st.currentRun = none →
      step env body st = { resp := .error .noActiveRun, state := st, events := [] })
  ∧ (∀ (env : StepEnv) (rid : String) (st : RunState) (run : RunProgress),
      env.authorized = true → st.currentRun = some run →
      rid ≠ "" → rid ≠ run.runId →
      step env (some rid) st =
        { resp := .error .runMismatch, state := st, events := [] }) := by
  constructor
  · intro env body st hauth hnone
    unfold step
    rw [hauth, hnone]
    simp
  · intro env rid st run hauth hrun hne hmm
    simp [step, hauth, hrun, runIdMismatch, hne, hmm]

/-- C5, counterexample: a request that provides the empty-string
`runId`, which differs from the active run's id `"r1"`, does not fail
with `RunMismatch` — the guard treats a falsy `runId` as absent and the
step proceeds (here: to the missing-token skip outcome). -/
theorem c5_counterexample :
    (let run : RunProgress :=
      { runId := "r1", spreadsheetId := "ss", settingsSheetName := "S", leadsSheetName := ""
        startRow := 2, endRow := 2, rowNumbers := [2], currentIndex := 0, processed := 0
        skipped := 0, totalLeads := 0, startedAt := "T", finishedAt := none, perRow := []
        headersAfterEnsure := ["Scraped"], leadsHeaders := [], existingUniqueIds := []
        datasetCol := 2, scrapedCol := 1, statusCol := 3, commentsCol := 4
        scrapeStatusCol := 5, pushStatusCol := 6, apifyTokenHeader := "Apify API Key"
        datasetUrlHeader := "Dataset URL" }
    let env : StepEnv :=
      { authorized := true, rowValues := [], envApifyToken := "", startResult := .ok "j"
        pollResult := .ok ("SUCCEEDED", "d"), cancelDuringPoll := false
        itemsResult := .ok [], time := fun _ => "T" }
    let st : RunState :=
      { cancelRequested := false, activeRunId := none, activeToken := none
        currentRun := some run }
    ("" : String) ≠ run.runId ∧
      (step env (some "") st).resp ≠ .error .runMismatch ∧
      (∃ s, (step env (some "") st).resp = .ok s)) := by
  refine ⟨by decide, by decide, ?_⟩
  exact ⟨_, rfl⟩

/-! ### Claim C10: the reported leads count -/

/-- Under the caller-protocol guards, with no cancellation pending and a
pending row at the cursor, a step call runs the per-row protocol. -/
lemma step_to_processRow (env : StepEnv) (body : Option String) (st : RunState)
    (run : RunProgress) (hauth : env.authorized = true)
    (hrun : st.currentRun = some run) (hmm : runIdMismatch body run.runId = false)
    (hcancel : st.cancelRequested = false)
    (hidx : run.currentIndex < run.rowNumbers.length) :
    step env body st = processRow env st run := by
  simp [step, hauth, hrun, hmm, hcancel, Nat.not_le.mpr hidx]

/-- The event trace of the shared tail is exactly what its caller
accumulated. -/
lemma finishTail_events (env : StepEnv) (st : RunState) (run : RunProgress) (t : Nat)
    (evs : List Event) : (finishTail env st run t evs).events = evs := rfl

/-- The response of the shared tail. -/
lemma finishTail_resp_eq (env : StepEnv) (st : RunState) (run : RunProgress) (t : Nat)
    (evs : List Event) :
    (finishTail env st run t evs).resp =
      .ok (makeSummary
        (if run.rowNumbers.length ≤ run.currentIndex + 1 then
          { run with currentIndex := run.currentIndex + 1, finishedAt := some (env.time t) }
        else { run with currentIndex := run.currentIndex + 1 })
        (decide (run.rowNumbers.length ≤ run.currentIndex + 1))) := by
  unfold finishTail
  dsimp only
  split
  next h => rw [if_pos (of_decide_eq_true h)]
  next h => rw [if_neg (fun hc => h (decide_eq_true hc))]

/-- The `perRow` log of a summary. -/
lemma makeSummary_perRow (run : RunProgress) (done : Bool) :
    (makeSummary run done).perRow = run.perRow := rfl

/-- The `totalLeads` counter of a summary. -/
lemma makeSummary_totalLeads (run : RunProgress) (done : Bool) :
    (makeSummary run done).totalLeads = run.totalLeads := rfl

/-- Components of the success continuation: the recorded outcome carries
the post-dedup appended row count, `totalLeads` grows by it, and the
event trace consists of the accumulated prefix, the batch append (when a
leads tab is configured and some rows survived), and the six completion
cells (with the count in the push status). -/
lemma successPath_spec (env : StepEnv) (st : RunState) (run1 : RunProgress)
    (rowNumber : Nat) (apifyToken datasetId : String) (items : List Item)
    (evs2 : List Event) :
    (∃ s, (successPath env st run1 rowNumber apifyToken datasetId items evs2).resp
        = .ok s ∧
      s.perRow.getLast? = some { row := rowNumber, status := .succeeded, message := none,
                                 datasetUrl := some ("https://api.apify.com/v2/datasets/"
                                   ++ datasetId ++ "/items?token=" ++ apifyToken),
                                 leads := some (if run1.leadsSheetName ≠ "" then
                                   (computeLeadRows run1.leadsHeaders (env.time 1) items
                                     run1.existingUniqueIds).1.length else 0) } ∧
      s.totalLeads = run1.totalLeads + (if run1.leadsSheetName ≠ "" then
        (computeLeadRows run1.leadsHeaders (env.time 1) items
          run1.existingUniqueIds).1.length else 0)) ∧
    (successPath env st run1 rowNumber apifyToken datasetId items evs2).events
      = evs2 ++
        (if run1.leadsSheetName ≠ "" then
          (if (computeLeadRows run1.leadsHeaders (env.time 1) items
              run1.existingUniqueIds).1 ≠ [] then
            [Event.appendRows run1.leadsSheetName
              (computeLeadRows run1.leadsHeaders (env.time 1) items
                run1.existingUniqueIds).1]
          else [])
        else []) ++
        [ Event.setCell run1.settingsSheetName rowNumber run1.datasetCol
            ("https://api.apify.com/v2/datasets/" ++ datasetId ++ "/items?token="
              ++ apifyToken),
          Event.setCell run1.settingsSheetName rowNumber run1.scrapeStatusCol
            ("COMPLETED on " ++ env.time (if run1.leadsSheetName ≠ "" then 2 else 1)),
          Event.setCell run1.settingsSheetName rowNumber run1.commentsCol "",
          Event.setCell run1.settingsSheetName rowNumber run1.statusCol "Completed",
          Event.setCell run1.settingsSheetName rowNumber run1.pushStatusCol
            (toString (if run1.leadsSheetName ≠ "" then
                (computeLeadRows run1.leadsHeaders (env.time 1) items
                  run1.existingUniqueIds).1.length else 0)
              ++ " leads scraped — Started: " ++ env.time 0 ++ ", Finished: "
              ++ env.time (if run1.leadsSheetName ≠ "" then 2 else 1)),
          Event.setCell run1.settingsSheetName rowNumber run1.scrapedCol "Y" ] := by
  by_cases hls : run1.leadsSheetName = ""
  · simp [successPath, hls, finishTail_resp_eq, finishTail_events, makeSummary_perRow,
      makeSummary_totalLeads, apply_ite, List.getLast?_concat]
  · simp [successPath, hls, finishTail_resp_eq, finishTail_events, makeSummary_perRow,
      makeSummary_totalLeads, apply_ite, List.getLast?_concat]

/-- Under the per-row success-path conditions, the per-row protocol
reduces to the success continuation with the accumulated trace. -/
lemma processRow_to_successPath (env : StepEnv) (st : RunState) (run : RunProgress)
    (jobId status datasetId : String) (items : List Item)
    (hnotY : upperStr (jsTrim (getFromRowCaseInsensitive
      (rowToDict run.headersAfterEnsure env.rowValues) "Scraped")) ≠ "Y")
    (htok : resolvedApifyToken env (rowToDict run.headersAfterEnsure env.rowValues)
      run.apifyTokenHeader ≠ "")
    (hreq : hasRequired (buildApifyInputFromRow
      (rowToDict run.headersAfterEnsure env.rowValues)) = true)
    (hstart : env.startResult = .ok jobId) (hjid : jobId ≠ "")
    (hpoll : env.pollResult = .ok (status, datasetId))
    (hcancel : st.cancelRequested = false) (hcp : env.cancelDuringPoll = false)
    (habort : upperStr status ≠ "ABORTED") (hds : datasetId ≠ "")
    (hitems : env.itemsResult = .ok items) :
    processRow env st run = successPath env
      { st with cancelRequested := false, activeRunId := none, activeToken := none }
      { run with processed := run.processed + 1 }
      (run.rowNumbers.getD run.currentIndex 0)
      (resolvedApifyToken env (rowToDict run.headersAfterEnsure env.rowValues)
        run.apifyTokenHeader)
      datasetId items
      [ Event.setCell run.settingsSheetName (run.rowNumbers.getD run.currentIndex 0)
          run.scrapeStatusCol ("RUNNING on " ++ env.time 0),
        Event.jobStart (resolvedApifyToken env (rowToDict run.headersAfterEnsure
          env.rowValues) run.apifyTokenHeader),
        Event.jobPoll (resolvedApifyToken env (rowToDict run.headersAfterEnsure
          env.rowValues) run.apifyTokenHeader) jobId,
        Event.fetchItems (resolvedApifyToken env (rowToDict run.headersAfterEnsure
          env.rowValues) run.apifyTokenHeader) datasetId ] := by
  simp only [processRow, hstart, hpoll, hitems, hcancel, hcp, hnotY, htok, hreq,
    hjid, hds, habort, ne_eq, not_false_eq_true, ite_false, ite_true, if_false, if_true,
    Bool.false_or, Bool.or_false, Bool.false_eq_true, or_self, or_false, false_or,
    not_true_eq_false]
  rfl

/-- C10: on the success path, the leads count reported in the row's
outcome entry, accumulated into `totalLeads`, and printed into the
push-status cell is the number of rows surviving the dedup filter (the
rows actually appended), not the number of fetched records; with no
leads tab configured it is `0` however many items the job returned. -/
theorem c10_leads_count_counts_appended_rows :
    ∀ (env : StepEnv) (body : Option String) (st : RunState) (run : RunProgress)
      (jobId status datasetId : String) (items : List Item),
      env.authorized = true →
      st.currentRun = some run →
      runIdMismatch body run.runId = false →
      st.cancelRequested = false →
      run.currentIndex < run.rowNumbers.length →
      upperStr (jsTrim (getFromRowCaseInsensitive
        (rowToDict run.headersAfterEnsure env.rowValues) "Scraped")) ≠ "Y" →
      resolvedApifyToken env (rowToDict run.headersAfterEnsure env.rowValues)
        run.apifyTokenHeader ≠ "" →
      hasRequired (buildApifyInputFromRow
        (rowToDict run.headersAfterEnsure env.rowValues)) = true →
      env.startResult = .ok jobId → jobId ≠ "" →
      env.pollResult = .ok (status, datasetId) →
      env.cancelDuringPoll = false →
      upperStr status ≠ "ABORTED" →
      datasetId ≠ "" →
      env.itemsResult = .ok items →
      ((∃ s, (step env body st).resp = .ok s ∧
          s.perRow.getLast? = some { row := run.rowNumbers.getD run.currentIndex 0,
                                     status := .succeeded, message := none,
                                     datasetUrl := some ("https://api.apify.com/v2/datasets/"
                                       ++ datasetId ++ "/items?token="
                                       ++ resolvedApifyToken env (rowToDict
                                         run.headersAfterEnsure env.rowValues)
                                         run.apifyTokenHeader),
                                     leads := some (if run.leadsSheetName ≠ "" then
                                       (computeLeadRows run.leadsHeaders (env.time 1) items
                                         run.existingUniqueIds).1.length else 0) } ∧
          s.totalLeads = run.totalLeads + (if run.leadsSheetName ≠ "" then
            (computeLeadRows run.leadsHeaders (env.time 1) items
              run.existingUniqueIds).1.length else 0)) ∧
        Event.setCell run.settingsSheetName (run.rowNumbers.getD run.currentIndex 0)
            run.pushStatusCol
            (toString (if run.leadsSheetName ≠ "" then
                (computeLeadRows run.leadsHeaders (env.time 1) items
                  run.existingUniqueIds).1.length else 0)
              ++ " leads scraped — Started: " ++ env.time 0 ++ ", Finished: "
              ++ env.time (if run.leadsSheetName ≠ "" then 2 else 1))
          ∈ (step env body st).events ∧
        (run.leadsSheetName ≠ "" →
          (computeLeadRows run.leadsHeaders (env.time 1) items
            run.existingUniqueIds).1 ≠ [] →
          Event.appendRows run.leadsSheetName
            (computeLeadRows run.leadsHeaders (env.time 1) items
              run.existingUniqueIds).1 ∈ (step env body st).events) ∧
        (run.leadsSheetName = "" →
          (if run.leadsSheetName ≠ "" then
            (computeLeadRows run.leadsHeaders (env.time 1) items
              run.existingUniqueIds).1.length else 0) = 0)) := by
  intro env body st run jobId status datasetId items hauth hrun hmm hcancel hidx hnotY
    htok hreq hstart hjid hpoll hcp habort hds hitems
  rw [step_to_processRow env body st run hauth hrun hmm hcancel hidx,
    processRow_to_successPath env st run jobId status datasetId items hnotY htok hreq
      hstart hjid hpoll hcancel hcp habort hds hitems]
  have hspec := successPath_spec env
    { st with cancelRequested := false, activeRunId := none, activeToken := none }
    { run with processed := run.processed + 1 }
    (run.rowNumbers.getD run.currentIndex 0)
    (resolvedApifyToken env (rowToDict run.headersAfterEnsure env.rowValues)
      run.apifyTokenHeader)
    datasetId items
    [ Event.setCell run.settingsSheetName (run.rowNumbers.getD run.currentIndex 0)
        run.scrapeStatusCol ("RUNNING on " ++ env.time 0),
      Event.jobStart (resolvedApifyToken env (rowToDict run.headersAfterEnsure
        env.rowValues) run.apifyTokenHeader),
      Event.jobPoll (resolvedApifyToken env (rowToDict run.headersAfterEnsure
        env.rowValues) run.apifyTokenHeader) jobId,
      Event.fetchItems (resolvedApifyToken env (rowToDict run.headersAfterEnsure
        env.rowValues) run.apifyTokenHeader) datasetId ]
  obtain ⟨⟨s, hresp, hlast, htot⟩, hevents⟩ := hspec
  refine ⟨⟨s, hresp, hlast, htot⟩, ?_, ?_, ?_⟩
  · rw [hevents]
    by_cases hls : run.leadsSheetName = "" <;> simp [hls]
  · intro hls hlr
    rw [hevents]
    simp [hls, hlr]
  · intro hls
    simp [hls]

/-- Concrete dataset items for the C10 scenario: one record whose key is
already in the leads tab, one new record, and an in-run duplicate. -/
def c10items : List Item :=
  [ [("placeId", JVal.s "abc"), ("title", JVal.s "B1")],
    [("placeId", JVal.s "xyz"), ("title", JVal.s "B2")],
    [("placeId", JVal.s "xyz")] ]

/-- Concrete run for the C10 scenario (cursor on row 3 of rows 2..3). -/
def c10run : RunProgress :=
  { runId := "run-1", spreadsheetId := "ss", settingsSheetName := "Niche Settings",
    leadsSheetName := "Leads", startRow := 2, endRow := 3,
    rowNumbers := [2, 3], currentIndex := 1, processed := 0, skipped := 1, totalLeads := 0,
    startedAt := "T", finishedAt := none,
    perRow := [{ row := 2, status := .skipped,
                 message := some "Already completed (Scraped = Y).", datasetUrl := none,
                 leads := none }],
    headersAfterEnsure := ["Search Location", "Sub-Niches", "Apify API Key",
      "Dataset URL", "Scraped", "Status", "Comments", "Google-Maps Scrape Status",
      "Google-Maps Push Status"],
    leadsHeaders := ["Unique ID", "Business Name"],
    existingUniqueIds := ["abc", "def"],
    datasetCol := 4, scrapedCol := 5, statusCol := 6, commentsCol := 7,
    scrapeStatusCol := 8, pushStatusCol := 9,
    apifyTokenHeader := "Apify API Key", datasetUrlHeader := "Dataset URL" }

/-- Concrete step environment for the C10 scenario. -/
def c10env : StepEnv :=
  { authorized := true, rowValues := ["loc", "a,b", "tok"], envApifyToken := "",
    startResult := .ok "job1", pollResult := .ok ("SUCCEEDED", "ds1"),
    cancelDuringPoll := false, itemsResult := .ok c10items,
    time := fun n => "T" ++ toString n }

/-- Concrete process state for the C10 scenario. -/
def c10st : RunState :=
  { cancelRequested := false, activeRunId := none, activeToken := none,
    currentRun := some c10run }

/-- C10 witness: the job fetched 3 records but only 1 survived dedup, so
the recorded outcome, the total counter, and the push-status cell all
say 1, and the appended batch is that single row. -/
theorem c10_witness :
    c10items.length = 3 ∧
    (computeLeadRows c10run.leadsHeaders (c10env.time 1) c10items
      c10run.existingUniqueIds).1.length = 1 ∧
    ((∃ s, (step c10env none c10st).resp = .ok s ∧
        s.perRow.getLast? = some { row := 3, status := .succeeded, message := none,
                                   datasetUrl := some
                                     "https://api.apify.com/v2/datasets/ds1/items?token=tok",
                                   leads := some 1 } ∧
        s.totalLeads = 1) ∧
      Event.setCell "Niche Settings" 3 9 "1 leads scraped — Started: T0, Finished: T2"
        ∈ (step c10env none c10st).events ∧
      Event.appendRows "Leads" [["xyz", "B2"]] ∈ (step c10env none c10st).events) := by
  have h := c10_leads_count_counts_appended_rows c10env none c10st c10run
    "job1" "SUCCEEDED" "ds1" c10items rfl rfl rfl rfl (by decide) (by decide)
    (by decide) (by decide) rfl (by decide) rfl rfl (by decide) (by decide) rfl
  obtain ⟨h1, h2, h3, _⟩ := h
  exact ⟨rfl, rfl, h1, h2, h3 (by decide) (by decide)⟩

/-! ### Claim C3: cancellation draining -/

/-- C5 witness: the protocol errors at concrete states — no active run,
and a non-empty mismatching `runId`. -/
theorem c5_witness :
    (let env : StepEnv :=
      { authorized := true, rowValues := [], envApifyToken := "", startResult := .ok "j",
        pollResult := .ok ("SUCCEEDED", "d"), cancelDuringPoll := false,
        itemsResult := .ok [], time := fun _ => "T" }
    let stNone : RunState :=
      { cancelRequested := false, activeRunId := none, activeToken := none,
        currentRun := none }
    step env none stNone = { resp := .error .noActiveRun, state := stNone, events := [] })
    ∧
    (step c10env (some "other") c10st =
      { resp := .error .runMismatch, state := c10st, events := [] }) := by
  constructor
  · exact c5_caller_protocol_errors.1 _ none _ rfl rfl
  · exact c5_caller_protocol_errors.2 c10env "other" c10st c10run rfl rfl
      (by decide) (by decide)

/-- State effects of the drain loop: the cursor and `skipped` advance by
`min fuel remaining`, one cancelled outcome is recorded per drained row,
and all other fields are untouched. -/
lemma drainLoop_spec (env : StepEnv) :
    ∀ (fuel : Nat) (run : RunProgress) (t : Nat),
      (drainLoop env fuel run t).1.currentIndex = run.currentIndex
          + min fuel (run.rowNumbers.length - run.currentIndex) ∧
      (drainLoop env fuel run t).1.perRow = run.perRow ++
        ((run.rowNumbers.drop run.currentIndex).take
          (min fuel (run.rowNumbers.length - run.currentIndex))).map cancelEntry ∧
      (drainLoop env fuel run t).1.rowNumbers = run.rowNumbers ∧
      (drainLoop env fuel run t).1.startRow = run.startRow ∧
      (drainLoop env fuel run t).1.endRow = run.endRow ∧
      (drainLoop env fuel run t).1.runId = run.runId ∧
      (drainLoop env fuel run t).1.finishedAt = run.finishedAt := by
  intro fuel
  induction fuel with
  | zero =>
    intro run t
    simp [drainLoop]
  | succ fuel ih =>
    intro run t
    by_cases hlt : run.currentIndex < run.rowNumbers.length
    · have hmin : min (fuel + 1) (run.rowNumbers.length - run.currentIndex)
          = min fuel (run.rowNumbers.length - (run.currentIndex + 1)) + 1 := by
        omega
      have hdrop : run.rowNumbers.drop run.currentIndex
          = run.rowNumbers.getD run.currentIndex 0
            :: run.rowNumbers.drop (run.currentIndex + 1) := by
        rw [List.getD_eq_getElem _ _ hlt]
        exact List.drop_eq_getElem_cons hlt
      obtain ⟨h1, h2, h3, h4, h5, h6, h7⟩ := ih
        (advanceRow { run with skipped := run.skipped + 1 }
          (cancelEntry (run.rowNumbers.getD run.currentIndex 0))) (t + 1)
      simp only [advanceRow] at h1 h2 h3 h4 h5 h6 h7
      simp only [drainLoop, if_pos hlt, advanceRow]
      refine ⟨?_, ?_, ?_, ?_, ?_, ?_, ?_⟩
      · rw [h1, hmin]
        omega
      · rw [h2, hmin, hdrop, List.take_succ_cons, List.map_cons]
        simp
      · rw [h3]
      · rw [h4]
      · rw [h5]
      · rw [h6]
      · rw [h7]
    · simp only [drainLoop, if_neg hlt]
      have : min (fuel + 1) (run.rowNumbers.length - run.currentIndex) = 0 := by omega
      simp [this]

/-- The drain loop performs no job-provider calls: every event it emits
is a status-cell write. -/
lemma drainLoop_noJobStart (env : StepEnv) :
    ∀ (fuel : Nat) (run : RunProgress) (t : Nat),
      ∀ ev ∈ (drainLoop env fuel run t).2.1, isJobStart ev = false := by
  intro fuel
  induction fuel with
  | zero => intro run t ev hev; simp [drainLoop] at hev
  | succ fuel ih =>
    intro run t ev hev
    by_cases hlt : run.currentIndex < run.rowNumbers.length
    · simp only [drainLoop, if_pos hlt] at hev
      rcases List.mem_append.mp hev with h | h
      · simp [statusCells] at h
        rcases h with h | h | h | h | h <;> subst h <;> rfl
      · exact ih _ _ ev h
    · simp only [drainLoop, if_neg hlt] at hev
      simp at hev

/-- Every drained row receives the five cancellation status-cell writes
in the drain loop's trace. -/
lemma drainLoop_cells (env : StepEnv) :
    ∀ (fuel : Nat) (run : RunProgress) (t : Nat) (i : Nat),
      i < min fuel (run.rowNumbers.length - run.currentIndex) →
      statusCells run (run.rowNumbers.getD (run.currentIndex + i) 0)
          ("FAILED on " ++ env.time (t + i)) "Cancelled by user." "Failed" "N"
          ("0 leads scraped — Started: " ++ env.time (t + i) ++ ", Finished: "
            ++ env.time (t + i) ++ " — CANCELLED")
        ⊆ (drainLoop env fuel run t).2.1 := by
  intro fuel
  induction fuel with
  | zero => intro run t i hi; simp at hi
  | succ fuel ih =>
    intro run t i hi
    have hlt : run.currentIndex < run.rowNumbers.length := by omega
    simp only [drainLoop, if_pos hlt]
    rcases i with _ | i
    · simp only [Nat.add_zero]
      exact List.subset_append_left _ _
    · have e1 : run.currentIndex + (i + 1) = run.currentIndex + 1 + i := by omega
      have e2 : t + (i + 1) = t + 1 + i := by omega
      rw [e1, e2]
      have hi2 : i < min fuel
          ((advanceRow { run with skipped := run.skipped + 1 }
            (cancelEntry (run.rowNumbers.getD run.currentIndex 0))).rowNumbers.length
          - (advanceRow { run with skipped := run.skipped + 1 }
            (cancelEntry (run.rowNumbers.getD run.currentIndex 0))).currentIndex) := by
        simp only [advanceRow]
        omega
      have hsub := ih (advanceRow { run with skipped := run.skipped + 1 }
        (cancelEntry (run.rowNumbers.getD run.currentIndex 0))) (t + 1) i hi2
      simp only [advanceRow, statusCells] at hsub ⊢
      exact hsub.trans (List.subset_append_right _ _)

/-- Number of pending rows one drain step processes. -/
def drainCount (run : RunProgress) : Nat :=
  min cancelBatch (run.rowNumbers.length - run.currentIndex)

/-- Behavior of one step call taken with the cancellation flag set: it
drains `drainCount` pending rows as skipped "Cancelled by user." with
the five status-cell writes each, advances the cursor by that count,
emits no job-start call, and finishes the run when no rows remain. -/
lemma step_drain_spec (env : StepEnv) (body : Option String) (st : RunState)
    (run : RunProgress) (hauth : env.authorized = true)
    (hrun : st.currentRun = some run) (hmm : runIdMismatch body run.runId = false)
    (hflag : st.cancelRequested = true) :
    (∃ s, (step env body st).resp = .ok s ∧
      s.perRow = run.perRow ++
        ((run.rowNumbers.drop run.currentIndex).take (drainCount run)).map cancelEntry ∧
      (s.done = true ↔ run.rowNumbers.length ≤ run.currentIndex + drainCount run) ∧
      s.startRow = run.startRow ∧ s.endRow = run.endRow) ∧
    (step env body st).state.cancelRequested = true ∧
    (∀ ev ∈ (step env body st).events, isJobStart ev = false) ∧
    (∀ i, i < drainCount run →
      statusCells run (run.rowNumbers.getD (run.currentIndex + i) 0)
          ("FAILED on " ++ env.time i) "Cancelled by user." "Failed" "N"
          ("0 leads scraped — Started: " ++ env.time i ++ ", Finished: " ++ env.time i
            ++ " — CANCELLED")
        ⊆ (step env body st).events) ∧
    (run.rowNumbers.length ≤ run.currentIndex + drainCount run →
      (step env body st).state.currentRun = none) ∧
    (¬ run.rowNumbers.length ≤ run.currentIndex + drainCount run →
      ∃ run3, (step env body st).state.currentRun = some run3 ∧
        run3.currentIndex = run.currentIndex + drainCount run ∧
        run3.perRow = run.perRow ++
          ((run.rowNumbers.drop run.currentIndex).take (drainCount run)).map cancelEntry ∧
        run3.rowNumbers = run.rowNumbers ∧ run3.runId = run.runId ∧
        run3.startRow = run.startRow ∧ run3.endRow = run.endRow) := by
  obtain ⟨h1, h2, h3, h4, h5, h6, h7⟩ := drainLoop_spec env cancelBatch run 0
  have hterm : ∀ ev ∈ (drainLoop env cancelBatch run 0).2.1, isJobStart ev = false :=
    drainLoop_noJobStart env cancelBatch run 0
  have hcells := drainLoop_cells env cancelBatch run 0
  have hdec : (decide ((drainLoop env cancelBatch run 0).1.rowNumbers.length
      ≤ (drainLoop env cancelBatch run 0).1.currentIndex))
      = decide (run.rowNumbers.length ≤ run.currentIndex + drainCount run) := by
    rw [h3, h1]
    simp [drainCount]
  simp only [step, hauth, hrun, hmm, hflag, Bool.true_eq_false, Bool.false_eq_true,
    ite_true, ite_false, reduceIte, hdec]
  by_cases hfin : run.rowNumbers.length ≤ run.currentIndex + drainCount run
  · have hdec2 : decide (run.rowNumbers.length ≤ run.currentIndex + drainCount run)
        = true := by simp [hfin]
    simp only [hdec2, ite_true]
    refine ⟨⟨_, rfl, ?_, ?_, h4, h5⟩, trivial, hterm, ?_, fun _ => trivial,
      fun hc => absurd hfin hc⟩
    · exact h2
    · simp [makeSummary, hfin]
    · intro i hi
      simpa using hcells i hi
  · have hdec2 : decide (run.rowNumbers.length ≤ run.currentIndex + drainCount run)
        = false := by simp [hfin]
    simp only [hdec2, Bool.false_eq_true, ite_false]
    refine ⟨⟨_, rfl, ?_, ?_, h4, h5⟩, trivial, hterm, ?_, fun hc => absurd hc hfin, ?_⟩
    · exact h2
    · simp [makeSummary, hfin]
    · intro i hi
      simpa using hcells i hi
    · intro _
      exact ⟨_, rfl, h1, h2, h3, h6, h4, h5⟩

/-- Once the cancellation flag is set, any step call keeps it set and
never emits a job-start call. -/
lemma step_flag_persists (env : StepEnv) (body : Option String) (st : RunState)
    (hflag : st.cancelRequested = true) :
    (step env body st).state.cancelRequested = true ∧
    (∀ ev ∈ (step env body st).events, isJobStart ev = false) := by
  by_cases hauth : env.authorized = true
  · rcases hrun : st.currentRun with _ | run
    · simp [step, hauth, hrun, hflag]
    · by_cases hmm : runIdMismatch body run.runId = true
      · simp [step, hauth, hrun, hmm, hflag]
      · obtain ⟨_, hf, hj, _⟩ := step_drain_spec env body st run hauth hrun
          (by simpa using hmm) hflag
        exact ⟨hf, hj⟩
  · have : env.authorized = false := by simpa using hauth
    simp [step, this, hflag]

/-- A finite sequence of engine actions — step calls with arbitrary
per-call environments and request bodies, and cancel calls — from a
given state, whose final action is a step call returning a summary with
`done = true`. -/
inductive RunCompletes : RunState → Summary → Prop
  | done (env : StepEnv) (body : Option String) (st : RunState) (s : Summary) :
      (step env body st).resp = .ok s → s.done = true → RunCompletes st s
  | more (env : StepEnv) (body : Option String) (st : RunState) (s : Summary) :
      RunCompletes (step env body st).state s → RunCompletes st s
  | cancelled (st : RunState) (s : Summary) :
      RunCompletes (cancel st).1 s → RunCompletes st s

/-- With the cancellation flag set, repeated step calls finish the run
and every remaining un-processed row receives the skipped
"Cancelled by user." outcome. -/
lemma drain_completes (env : StepEnv) (body : Option String) :
    ∀ (m : Nat) (st : RunState) (run : RunProgress),
      run.rowNumbers.length - run.currentIndex ≤ m →
      env.authorized = true → st.currentRun = some run →
      runIdMismatch body run.runId = false → st.cancelRequested = true →
      ∃ s, RunCompletes st s ∧
        s.perRow = run.perRow
          ++ (run.rowNumbers.drop run.currentIndex).map cancelEntry := by
  intro m
  induction m with
  | zero =>
    intro st run hm hauth hrun hmm hflag
    obtain ⟨⟨s0, hresp, hperRow, hdone, -, -⟩, -, -, -, -, -⟩ :=
      step_drain_spec env body st run hauth hrun hmm hflag
    have hle : run.rowNumbers.length ≤ run.currentIndex := by omega
    refine ⟨s0, RunCompletes.done env body st s0 hresp
      (hdone.mpr (le_trans hle (Nat.le_add_right _ _))), ?_⟩
    rw [hperRow, List.drop_eq_nil_of_le hle]
    simp
  | succ m ih =>
    intro st run hm hauth hrun hmm hflag
    obtain ⟨⟨s0, hresp, hperRow, hdone, -, -⟩, hflag2, -, -, -, hsome⟩ :=
      step_drain_spec env body st run hauth hrun hmm hflag
    have hkle : drainCount run ≤ run.rowNumbers.length - run.currentIndex :=
      Nat.min_le_right _ _
    by_cases hfin : run.rowNumbers.length ≤ run.currentIndex + drainCount run
    · refine ⟨s0, RunCompletes.done env body st s0 hresp (hdone.mpr hfin), ?_⟩
      rw [hperRow]
      congr 1
      rw [List.take_of_length_le (by rw [List.length_drop]; omega)]
    · obtain ⟨run3, hcr, hidx3, hper3, hrows3, hrid3, -, -⟩ := hsome hfin
      have hk1 : 1 ≤ drainCount run :=
        Nat.le_min.mpr ⟨by norm_num [cancelBatch], by omega⟩
      obtain ⟨s, hcomp, hper⟩ := ih (step env body st).state run3
        (by rw [hrows3, hidx3]; omega) hauth hcr (by rw [hrid3]; exact hmm) hflag2
      refine ⟨s, RunCompletes.more env body st s hcomp, ?_⟩
      rw [hper, hper3, hrows3, hidx3, List.append_assoc, ← List.map_append]
      have hdd : run.rowNumbers.drop (run.currentIndex + drainCount run)
          = (run.rowNumbers.drop run.currentIndex).drop (drainCount run) := by
        rw [List.drop_drop]
      rw [hdd, List.take_append_drop]

/-- C3: `cancel` sets the cancellation flag; every step call taken with
the flag set drains up to `cancelBatch = 10` pending rows as skipped
"Cancelled by user.", writing the five cancellation status cells
(Scrape-Status, Comments, Status, Scraped, Push-Status) for each drained
row and advancing the cursor by the number drained; once the flag is set
every step call keeps it set and emits no job-start call; and from any
such state the run completes with every remaining un-processed row
receiving the skipped "Cancelled by user." outcome. -/
theorem c3_cancellation_draining :
    (∀ st, (cancel st).1.cancelRequested = true)
  ∧ (∀ (env : StepEnv) (body : Option String) (st : RunState) (run : RunProgress),
      env.authorized = true → st.currentRun = some run →
      runIdMismatch body run.runId = false → st.cancelRequested = true →
      (∃ s, (step env body st).resp = .ok s ∧
        s.perRow = run.perRow ++
          ((run.rowNumbers.drop run.currentIndex).take (drainCount run)).map cancelEntry ∧
        (s.done = true ↔ run.rowNumbers.length ≤ run.currentIndex + drainCount run)) ∧
      (∀ i, i < drainCount run →
        statusCells run (run.rowNumbers.getD (run.currentIndex + i) 0)
            ("FAILED on " ++ env.time i) "Cancelled by user." "Failed" "N"
            ("0 leads scraped — Started: " ++ env.time i ++ ", Finished: " ++ env.time i
              ++ " — CANCELLED")
          ⊆ (step env body st).events) ∧
      ((step env body st).state.currentRun = none ∨
        ∃ run3, (step env body st).state.currentRun = some run3 ∧
          run3.currentIndex = run.currentIndex + drainCount run))
  ∧ (∀ (env : StepEnv) (body : Option String) (st : RunState),
      st.cancelRequested = true →
      (step env body st).state.cancelRequested = true ∧
      ∀ ev ∈ (step env body st).events, isJobStart ev = false)
  ∧ (∀ (env : StepEnv) (body : Option String) (st : RunState) (run : RunProgress),
      env.authorized = true → st.currentRun = some run →
      runIdMismatch body run.runId = false → st.cancelRequested = true →
      ∃ s, RunCompletes st s ∧
        s.perRow = run.perRow
          ++ (run.rowNumbers.drop run.currentIndex).map cancelEntry) := by
  refine ⟨?_, ?_, step_flag_persists, ?_⟩
  · intro st
    rcases h1 : st.activeRunId with _ | jid <;> rcases h2 : st.activeToken with _ | tok <;>
      simp [cancel, h1, h2, apply_ite]
  · intro env body st run hauth hrun hmm hflag
    obtain ⟨⟨s0, ha, hb, hc, -, -⟩, -, -, hcells, hnone, hsome⟩ :=
      step_drain_spec env body st run hauth hrun hmm hflag
    refine ⟨⟨s0, ha, hb, hc⟩, hcells, ?_⟩
    by_cases hfin : run.rowNumbers.length ≤ run.currentIndex + drainCount run
    · exact Or.inl (hnone hfin)
    · obtain ⟨run3, hcr, hidx3, -⟩ := hsome hfin
      exact Or.inr ⟨run3, hcr, hidx3⟩
  · intro env body st run hauth hrun hmm hflag
    exact drain_completes env body (run.rowNumbers.length - run.currentIndex) st run
      le_rfl hauth hrun hmm hflag

/-- Concrete run for the C3 scenario: two pending rows. -/
def c3run : RunProgress :=
  { c10run with currentIndex := 0, perRow := [], skipped := 0 }

/-- Concrete cancelled state for the C3 scenario. -/
def c3st : RunState :=
  { cancelRequested := true, activeRunId := none, activeToken := none,
    currentRun := some c3run }

/-- Concrete environment for the C3 scenario. -/
def c3env : StepEnv := c10env

/-- C3 witness: a cancelled two-row run — one drained step reports both
rows skipped and a completing sequence exists from the cancelled
state. -/
theorem c3_witness :
    c3st.cancelRequested = true ∧
    (∃ s, (step c3env none c3st).resp = .ok s ∧
      s.perRow = c3run.perRow ++
        ((c3run.rowNumbers.drop c3run.currentIndex).take (drainCount c3run)).map
          cancelEntry ∧
      (s.done = true ↔ c3run.rowNumbers.length
        ≤ c3run.currentIndex + drainCount c3run)) ∧
    (∃ s, RunCompletes c3st s ∧
      s.perRow = c3run.perRow
        ++ (c3run.rowNumbers.drop c3run.currentIndex).map cancelEntry) :=
  ⟨rfl, (c3_cancellation_draining.2.1 c3env none c3st c3run rfl rfl rfl rfl).1,
    c3_cancellation_draining.2.2.2 c3env none c3st c3run rfl rfl rfl rfl⟩

/-! ### Claim C1: run-completion invariants -/

/-- The row-cursor invariant of an active run: the row range is the
arithmetic sequence of the clamped bounds, and the result log holds
exactly the rows already passed by the cursor, in order. -/
def RunInv (run : RunProgress) : Prop :=
  run.startRow ≤ run.endRow ∧
  run.rowNumbers = List.range' run.startRow (run.endRow + 1 - run.startRow) ∧
  run.perRow.map PerRowEntry.row = run.rowNumbers.take run.currentIndex

/-- The invariant lifted to the process state. -/
def StInv (st : RunState) : Prop :=
  ∀ run, st.currentRun = some run → RunInv run

/-- Shape of the shared tail: the kept run advances the cursor by one
and keeps the log and range; a returned summary carries the caller's log
and range, and reports done only at the end of the range. -/
lemma finishTail_shape (env : StepEnv) (st : RunState) (run : RunProgress) (t : Nat)
    (evs : List Event) :
    (∀ run2, (finishTail env st run t evs).state.currentRun = some run2 →
      run2.rowNumbers = run.rowNumbers ∧ run2.startRow = run.startRow ∧
      run2.endRow = run.endRow ∧ run2.currentIndex = run.currentIndex + 1 ∧
      run2.perRow = run.perRow) ∧
    (∀ s, (finishTail env st run t evs).resp = .ok s →
      s.perRow = run.perRow ∧ s.startRow = run.startRow ∧ s.endRow = run.endRow ∧
      (s.done = true → run.rowNumbers.length ≤ run.currentIndex + 1)) := by
  unfold finishTail
  dsimp only
  split
  next h =>
    constructor
    · intro run2 hr2
      simp at hr2
    · intro s hs
      injection hs with hs
      subst hs
      exact ⟨rfl, rfl, rfl, fun _ => of_decide_eq_true h⟩
  next h =>
    constructor
    · intro run2 hr2
      injection hr2 with hr2
      subst hr2
      exact ⟨rfl, rfl, rfl, rfl, rfl⟩
    · intro s hs
      injection hs with hs
      subst hs
      refine ⟨rfl, rfl, rfl, fun hd => absurd hd h⟩

/-- Shape of the catch branch: exactly one failed outcome for the
current row is recorded before the shared tail runs. -/
lemma catchPath_shape (env : StepEnv) (st : RunState) (run : RunProgress)
    (rowNumber : Nat) (startedAt msg : String) (evsSoFar : List Event) :
    (∀ run2,
      (catchPath env st run rowNumber startedAt msg evsSoFar).state.currentRun
        = some run2 →
      run2.rowNumbers = run.rowNumbers ∧ run2.startRow = run.startRow ∧
      run2.endRow = run.endRow ∧ run2.currentIndex = run.currentIndex + 1 ∧
      run2.perRow.map PerRowEntry.row
        = run.perRow.map PerRowEntry.row ++ [rowNumber]) ∧
    (∀ s, (catchPath env st run rowNumber startedAt msg evsSoFar).resp = .ok s →
      s.perRow.map PerRowEntry.row = run.perRow.map PerRowEntry.row ++ [rowNumber] ∧
      s.startRow = run.startRow ∧ s.endRow = run.endRow ∧
      (s.done = true → run.rowNumbers.length ≤ run.currentIndex + 1)) := by
  unfold catchPath
  dsimp only
  constructor
  · intro run2 hr2
    obtain ⟨a, b, c, d, e⟩ := (finishTail_shape env st _ _ _).1 run2 hr2
    refine ⟨a, b, c, d, ?_⟩
    rw [e]
    simp
  · intro s hs
    obtain ⟨a, b, c, d⟩ := (finishTail_shape env st _ _ _).2 s hs
    refine ⟨?_, b, c, d⟩
    rw [a]
    simp

/-- Shape of the success continuation: exactly one succeeded outcome for
the current row is recorded before the shared tail runs. -/
lemma successPath_shape (env : StepEnv) (st : RunState) (run1 : RunProgress)
    (rowNumber : Nat) (apifyToken datasetId : String) (items : List Item)
    (evs2 : List Event) :
    (∀ run2,
      (successPath env st run1 rowNumber apifyToken datasetId items evs2).state.currentRun
        = some run2 →
      run2.rowNumbers = run1.rowNumbers ∧ run2.startRow = run1.startRow ∧
      run2.endRow = run1.endRow ∧ run2.currentIndex = run1.currentIndex + 1 ∧
      run2.perRow.map PerRowEntry.row
        = run1.perRow.map PerRowEntry.row ++ [rowNumber]) ∧
    (∀ s, (successPath env st run1 rowNumber apifyToken datasetId items evs2).resp
        = .ok s →
      s.perRow.map PerRowEntry.row = run1.perRow.map PerRowEntry.row ++ [rowNumber] ∧
      s.startRow = run1.startRow ∧ s.endRow = run1.endRow ∧
      (s.done = true → run1.rowNumbers.length ≤ run1.currentIndex + 1)) := by
  unfold successPath
  dsimp only
  constructor
  · intro run2 hr2
    obtain ⟨a, b, c, d, e⟩ := (finishTail_shape env st _ _ _).1 run2 hr2
    refine ⟨a, b, c, d, ?_⟩
    rw [e]
    simp
  · intro s hs
    obtain ⟨a, b, c, d⟩ := (finishTail_shape env st _ _ _).2 s hs
    refine ⟨?_, b, c, d⟩
    rw [a]
    simp

/-- Shape of the per-row protocol: whatever branch is taken, the kept
run advances the cursor by one past the current row and appends exactly
one outcome for it, and a done summary implies the range is exhausted. -/
lemma processRow_shape (env : StepEnv) (st : RunState) (run : RunProgress) :
    (∀ run2, (processRow env st run).state.currentRun = some run2 →
      run2.rowNumbers = run.rowNumbers ∧ run2.startRow = run.startRow ∧
      run2.endRow = run.endRow ∧ run2.currentIndex = run.currentIndex + 1 ∧
      run2.perRow.map PerRowEntry.row
        = run.perRow.map PerRowEntry.row ++ [run.rowNumbers.getD run.currentIndex 0]) ∧
    (∀ s, (processRow env st run).resp = .ok s → s.done = true →
      s.perRow.map PerRowEntry.row
        = run.perRow.map PerRowEntry.row ++ [run.rowNumbers.getD run.currentIndex 0] ∧
      s.startRow = run.startRow ∧ s.endRow = run.endRow ∧
      run.rowNumbers.length ≤ run.currentIndex + 1) := by
  constructor
  · intro run2 hr2
    unfold processRow at hr2
    dsimp only at hr2
    split at hr2
    · injection hr2 with hr2
      subst hr2
      refine ⟨rfl, rfl, rfl, rfl, by simp [advanceRow]⟩
    · split at hr2
      · injection hr2 with hr2
        subst hr2
        refine ⟨rfl, rfl, rfl, rfl, by simp [advanceRow]⟩
      · split at hr2
        · obtain ⟨a, b, c, d, e⟩ := (catchPath_shape _ _ _ _ _ _ _).1 run2 hr2
          exact ⟨a, b, c, d, e⟩
        · split at hr2
          · obtain ⟨a, b, c, d, e⟩ := (catchPath_shape _ _ _ _ _ _ _).1 run2 hr2
            exact ⟨a, b, c, d, e⟩
          · split at hr2
            · obtain ⟨a, b, c, d, e⟩ := (catchPath_shape _ _ _ _ _ _ _).1 run2 hr2
              exact ⟨a, b, c, d, e⟩
            · split at hr2
              · injection hr2 with hr2
                subst hr2
                refine ⟨rfl, rfl, rfl, rfl, by simp [advanceRow]⟩
              · split at hr2
                · obtain ⟨a, b, c, d, e⟩ := (catchPath_shape _ _ _ _ _ _ _).1 run2 hr2
                  exact ⟨a, b, c, d, e⟩
                · split at hr2
                  · obtain ⟨a, b, c, d, e⟩ := (catchPath_shape _ _ _ _ _ _ _).1 run2 hr2
                    exact ⟨a, b, c, d, e⟩
                  · obtain ⟨a, b, c, d, e⟩ := (successPath_shape _ _ _ _ _ _ _ _).1 run2 hr2
                    exact ⟨a, b, c, d, e⟩
  · intro s hs hdone
    unfold processRow at hs
    dsimp only at hs
    split at hs
    · injection hs with hs
      subst hs
      exact absurd hdone (by simp [makeSummary])
    · split at hs
      · injection hs with hs
        subst hs
        exact absurd hdone (by simp [makeSummary])
      · split at hs
        · obtain ⟨a, b, c, d⟩ := (catchPath_shape _ _ _ _ _ _ _).2 s hs
          exact ⟨a, b, c, d hdone⟩
        · split at hs
          · obtain ⟨a, b, c, d⟩ := (catchPath_shape _ _ _ _ _ _ _).2 s hs
            exact ⟨a, b, c, d hdone⟩
          · split at hs
            · obtain ⟨a, b, c, d⟩ := (catchPath_shape _ _ _ _ _ _ _).2 s hs
              exact ⟨a, b, c, d hdone⟩
            · split at hs
              · injection hs with hs
                subst hs
                exact absurd hdone (by simp [makeSummary])
              · split at hs
                · obtain ⟨a, b, c, d⟩ := (catchPath_shape _ _ _ _ _ _ _).2 s hs
                  exact ⟨a, b, c, d hdone⟩
                · split at hs
                  · obtain ⟨a, b, c, d⟩ := (catchPath_shape _ _ _ _ _ _ _).2 s hs
                    exact ⟨a, b, c, d hdone⟩
                  · obtain ⟨a, b, c, d⟩ := (successPath_shape _ _ _ _ _ _ _ _).2 s hs
                    exact ⟨a, b, c, d hdone⟩

/-- A cancel call never touches the active run. -/
lemma cancel_currentRun (st : RunState) : (cancel st).1.currentRun = st.currentRun := by
  rcases h1 : st.activeRunId with _ | jid <;> rcases h2 : st.activeToken with _ | tok <;>
    simp [cancel, h1, h2, apply_ite]

/-- Prefix extension by the cell at the cursor. -/
lemma take_concat_getD {l : List Nat} {i : Nat} (h : i < l.length) :
    l.take i ++ [l.getD i 0] = l.take (i + 1) := by
  rw [List.getD_eq_getElem _ _ h, List.take_succ, List.getElem?_eq_getElem h]
  rfl

/-- Row numbers of drained outcome entries. -/
lemma map_row_cancelEntry (xs : List Nat) :
    (xs.map cancelEntry).map PerRowEntry.row = xs := by
  induction xs with
  | nil => rfl
  | cons x rest ih => simp [cancelEntry, ih]

/-- One step call preserves the cursor invariant, and a summary it
reports with `done = true` logs exactly the run's full row range. -/
lemma step_inv_and_done (env : StepEnv) (body : Option String) (st : RunState)
    (hinv : StInv st) :
    StInv (step env body st).state ∧
    (∀ s, (step env body st).resp = .ok s → s.done = true →
      ∃ run, st.currentRun = some run ∧ RunInv run ∧
        s.perRow.map PerRowEntry.row = run.rowNumbers ∧
        s.startRow = run.startRow ∧ s.endRow = run.endRow) := by
  by_cases hauth : env.authorized = true
  case neg =>
    have hf : env.authorized = false := by simpa using hauth
    constructor
    · intro run2 hr2
      simp [step, hf] at hr2
      exact hinv run2 hr2
    · intro s hs
      simp [step, hf] at hs
  case pos =>
  rcases hcr : st.currentRun with _ | run
  · constructor
    · intro run2 hr2
      simp [step, hauth, hcr] at hr2
    · intro s hs
      simp [step, hauth, hcr] at hs
  · have hrinv := hinv run hcr
    by_cases hmmb : runIdMismatch body run.runId = true
    · constructor
      · intro run2 hr2
        simp [step, hauth, hcr, hmmb] at hr2
        exact hr2 ▸ hrinv
      · intro s hs
        simp [step, hauth, hcr, hmmb] at hs
    · have hmmf : runIdMismatch body run.runId = false := by simpa using hmmb
      by_cases hflag : st.cancelRequested = true
      · obtain ⟨⟨s0, hresp, hperRow, hdone, hsr0, her0⟩, -, -, -, hnone, hsome⟩ :=
          step_drain_spec env body st run hauth hcr hmmf hflag
        constructor
        · intro run2 hr2
          by_cases hfin : run.rowNumbers.length ≤ run.currentIndex + drainCount run
          · rw [hnone hfin] at hr2
            exact absurd hr2 (by simp)
          · obtain ⟨run3, hcr3, hidx3, hper3, hrows3, -, hsr3, her3⟩ := hsome hfin
            rw [hcr3] at hr2
            injection hr2 with hr2
            subst hr2
            refine ⟨by rw [hsr3, her3]; exact hrinv.1,
              by rw [hrows3, hsr3, her3]; exact hrinv.2.1, ?_⟩
            rw [hper3, hidx3, hrows3, List.map_append, map_row_cancelEntry,
              hrinv.2.2, List.take_add]
        · intro s hs hsdone
          have hss : s = s0 := by
            rw [hresp] at hs
            injection hs with hs
            exact hs.symm
          subst hss
          refine ⟨run, rfl, hrinv, ?_, hsr0, her0⟩
          rw [hperRow, List.map_append, map_row_cancelEntry, hrinv.2.2, ← List.take_add]
          exact List.take_of_length_le (hdone.mp hsdone)
      · have hflagf : st.cancelRequested = false := by simpa using hflag
        by_cases hend : run.rowNumbers.length ≤ run.currentIndex
        · constructor
          · intro run2 hr2
            simp [step, hauth, hcr, hmmf, hflagf, hend] at hr2
          · intro s hs hsdone
            simp only [step, hauth, hcr, hmmf, hflagf, hend, Bool.true_eq_false,
              Bool.false_eq_true, ite_true, ite_false, reduceIte, if_pos] at hs
            split at hs
            · injection hs with hs
              subst hs
              exact ⟨run, rfl, hrinv, by
                  simpa [makeSummary] using
                    hrinv.2.2.trans (List.take_of_length_le hend), rfl, rfl⟩
            · injection hs with hs
              subst hs
              exact ⟨run, rfl, hrinv, by
                  simpa [makeSummary] using
                    hrinv.2.2.trans (List.take_of_length_le hend), rfl, rfl⟩
        · have hidx : run.currentIndex < run.rowNumbers.length := by omega
          have hred := step_to_processRow env body st run hauth hcr hmmf hflagf hidx
          constructor
          · intro run2 hr2
            rw [hred] at hr2
            obtain ⟨a, b, c, d, e⟩ := (processRow_shape env st run).1 run2 hr2
            refine ⟨by rw [b, c]; exact hrinv.1, by rw [a, b, c]; exact hrinv.2.1, ?_⟩
            rw [e, d, a, hrinv.2.2, take_concat_getD hidx]
          · intro s hs hsdone
            rw [hred] at hs
            obtain ⟨a, b, c, d⟩ := (processRow_shape env st run).2 s hs hsdone
            refine ⟨run, rfl, hrinv, ?_, b, c⟩
            rw [a, hrinv.2.2, take_concat_getD hidx, List.take_of_length_le d]

/-- The cursor of an active run never moves backward across a step. -/
lemma step_cursor_monotone (env : StepEnv) (body : Option String) (st : RunState)
    (run run2 : RunProgress) (hcr : st.currentRun = some run)
    (hr2 : (step env body st).state.currentRun = some run2) :
    run.currentIndex ≤ run2.currentIndex := by
  by_cases hauth : env.authorized = true
  case neg =>
    have hf : env.authorized = false := by simpa using hauth
    simp [step, hf, hcr] at hr2
    exact hr2 ▸ le_rfl
  case pos =>
  by_cases hmmb : runIdMismatch body run.runId = true
  · simp [step, hauth, hcr, hmmb] at hr2
    exact hr2 ▸ le_rfl
  · have hmmf : runIdMismatch body run.runId = false := by simpa using hmmb
    by_cases hflag : st.cancelRequested = true
    · obtain ⟨-, -, -, -, hnone, hsome⟩ :=
        step_drain_spec env body st run hauth hcr hmmf hflag
      by_cases hfin : run.rowNumbers.length ≤ run.currentIndex + drainCount run
      · rw [hnone hfin] at hr2
        exact absurd hr2 (by simp)
      · obtain ⟨run3, hcr3, hidx3, -⟩ := hsome hfin
        rw [hcr3] at hr2
        injection hr2 with hr2
        subst hr2
        omega
    · have hflagf : st.cancelRequested = false := by simpa using hflag
      by_cases hend : run.rowNumbers.length ≤ run.currentIndex
      · simp [step, hauth, hcr, hmmf, hflagf, hend] at hr2
      · have hidx : run.currentIndex < run.rowNumbers.length := by omega
        rw [step_to_processRow env body st run hauth hcr hmmf hflagf hidx] at hr2
        obtain ⟨-, -, -, d, -⟩ := (processRow_shape env st run).1 run2 hr2
        omega

/-- The start handler establishes the cursor invariant. -/
lemma start_inv (env : StartEnv) (body : StartBody) (out : StartOut)
    (hok : start env body = .ok out) : StInv out.state := by
  unfold start at hok
  split at hok
  · exact absurd hok (by simp)
  · dsimp only at hok
    split at hok
    · split at hok
      · exact absurd hok (by simp)
      · injection hok with hok
        subst hok
        intro run0 hr0
        injection hr0 with hr0
        subst hr0
        exact ⟨by simp, rfl, by simp⟩
    · next hne =>
      split at hok
      · next hc => exact absurd hc.1 hne
      · injection hok with hok
        subst hok
        intro run0 hr0
        injection hr0 with hr0
        subst hr0
        exact ⟨by simp, rfl, by simp⟩

/-- Any completing action sequence from an invariant-satisfying state
reports a summary logging exactly some invariant run's full row range. -/
lemma completes_done_summary :
    ∀ (st : RunState) (s : Summary), RunCompletes st s → StInv st →
      ∃ run, RunInv run ∧ s.perRow.map PerRowEntry.row = run.rowNumbers ∧
        s.startRow = run.startRow ∧ s.endRow = run.endRow := by
  intro st s hcomp
  induction hcomp with
  | done env body st s hresp hdone =>
    intro hinv
    obtain ⟨run, -, hrinv, hmap, hsr, her⟩ :=
      (step_inv_and_done env body st hinv).2 s hresp hdone
    exact ⟨run, hrinv, hmap, hsr, her⟩
  | more env body st s _ ih =>
    intro hinv
    exact ih (step_inv_and_done env body st hinv).1
  | cancelled st s _ ih =>
    intro hinv
    refine ih ?_
    intro run hr
    rw [cancel_currentRun] at hr
    exact hinv run hr

/-- C1: the cursor of an active run only advances, never revisiting a
row; and for every run started by the start handler and driven to
completion by step calls (with or without interleaved cancels), the
final summary holds exactly `endRow - startRow + 1` per-row outcomes,
with each row number of the range receiving exactly one outcome. -/
theorem c1_run_completion_invariants :
    (∀ (env : StepEnv) (body : Option String) (st : RunState) (run run2 : RunProgress),
      st.currentRun = some run →
      (step env body st).state.currentRun = some run2 →
      run.currentIndex ≤ run2.currentIndex)
  ∧ (∀ (senv : StartEnv) (sbody : StartBody) (out : StartOut) (s : Summary),
      start senv sbody = .ok out → RunCompletes out.state s →
      s.perRow.length = s.endRow + 1 - s.startRow ∧
      (s.perRow.map PerRowEntry.row).Nodup ∧
      (∀ r, s.startRow ≤ r → r ≤ s.endRow →
        (s.perRow.map PerRowEntry.row).count r = 1)) := by
  constructor
  · exact step_cursor_monotone
  · intro senv sbody out s hok hcomp
    obtain ⟨run, hrinv, hmap, hsr, her⟩ :=
      completes_done_summary out.state s hcomp (start_inv senv sbody out hok)
    obtain ⟨hle, hrows, -⟩ := hrinv
    refine ⟨?_, ?_, ?_⟩
    · have hlen : (s.perRow.map PerRowEntry.row).length = run.rowNumbers.length := by
        rw [hmap]
      rw [List.length_map] at hlen
      rw [hlen, hrows, List.length_range', hsr, her]
    · rw [hmap, hrows]
      exact List.nodup_range' _ _
    · intro r hr1 hr2
      rw [hmap, hrows]
      refine List.count_eq_one_of_mem (List.nodup_range' _ _) ?_
      rw [List.mem_range'_1]
      rw [hsr] at hr1
      rw [her] at hr2
      exact ⟨hr1, by omega⟩

/-- Concrete start body for the C1 witness scenario: one row (2..2), no
leads tab. -/
def c1body : StartBody :=
  { spreadsheetId := "ss", settingsSheetName := "S", leadsSheetName := "",
    datasetUrlHeader := "Dataset URL", apifyTokenHeader := "Apify Token",
    startRow := 2, endRow := 2 }

/-- Concrete start environment for the C1 witness scenario. -/
def c1senv : StartEnv :=
  { authorized := true, settingsHeaders := ["Scraped"], leadsHeaders := [],
    uniqueIdColumn := [], newRunId := "r1", timeStr := "T0" }

/-- Concrete step environment for the C1 witness scenario (the one row
is already marked Scraped = y). -/
def c1env1 : StepEnv :=
  { authorized := true, rowValues := ["y"], envApifyToken := "",
    startResult := .ok "j", pollResult := .ok ("SUCCEEDED", "ds"),
    cancelDuringPoll := false, itemsResult := .ok [],
    time := fun n => "T" ++ toString n }

/-- Placeholder run record used only as an `Option.getD` default. -/
def c1dummyRun : RunProgress :=
  { runId := "", spreadsheetId := "", settingsSheetName := "", leadsSheetName := "",
    startRow := 0, endRow := 0, rowNumbers := [], currentIndex := 0, processed := 0,
    skipped := 0, totalLeads := 0, startedAt := "", finishedAt := none, perRow := [],
    headersAfterEnsure := [], leadsHeaders := [], existingUniqueIds := [],
    datasetCol := 0, scrapedCol := 0, statusCol := 0, commentsCol := 0,
    scrapeStatusCol := 0, pushStatusCol := 0, apifyTokenHeader := "",
    datasetUrlHeader := "" }

/-- The start handler output in the C1 witness scenario. -/
def c1out : StartOut :=
  match start c1senv c1body with
  | .ok o => o
  | .error _ =>
    { state := { cancelRequested := false, activeRunId := none,
                 activeToken := none, currentRun := none }
      summary := makeSummary c1dummyRun false
      headersAfterEnsure := [] }

/-- The freshly started run of the C1 witness scenario. -/
def c1run0 : RunProgress := (c1out.state.currentRun).getD c1dummyRun

/-- The run after one step of the C1 witness scenario. -/
def c1run1 : RunProgress :=
  ((step c1env1 none c1out.state).state.currentRun).getD c1dummyRun

/-- The final summary of the C1 witness scenario. -/
def c1s : Summary :=
  { runId := "r1", settingsSheetName := "S", leadsSheetName := none,
    startRow := 2, endRow := 2, processed := 0, skipped := 1, totalLeads := 0,
    startedAt := "T0", finishedAt := some "T0",
    perRow := [{ row := 2, status := .skipped,
                 message := some "Already completed (Scraped = Y).",
                 datasetUrl := none, leads := none }],
    done := true }

/-- C1 witness: a started one-row run, driven to completion in two step
calls, yields cursor monotonicity and a summary holding exactly one
outcome for row 2. -/
theorem c1_witness :
    c1out.state.currentRun = some c1run0 ∧
    (step c1env1 none c1out.state).state.currentRun = some c1run1 ∧
    c1run0.currentIndex ≤ c1run1.currentIndex ∧
    start c1senv c1body = .ok c1out ∧
    RunCompletes c1out.state c1s ∧
    c1s.perRow.length = c1s.endRow + 1 - c1s.startRow ∧
    (c1s.perRow.map PerRowEntry.row).Nodup ∧
    (c1s.perRow.map PerRowEntry.row).count 2 = 1 := by
  have hcr0 : c1out.state.currentRun = some c1run0 := rfl
  have hcr1 : (step c1env1 none c1out.state).state.currentRun = some c1run1 := rfl
  have hok : start c1senv c1body = .ok c1out := rfl
  have hcomp : RunCompletes c1out.state c1s :=
    RunCompletes.more c1env1 none c1out.state c1s
      (RunCompletes.done c1env1 none (step c1env1 none c1out.state).state c1s rfl rfl)
  obtain ⟨hlen, hnd, hcount⟩ :=
    c1_run_completion_invariants.2 c1senv c1body c1out c1s hok hcomp
  exact ⟨hcr0, hcr1,
    c1_run_completion_invariants.1 c1env1 none c1out.state c1run0 c1run1 hcr0 hcr1,
    hok, hcomp, hlen, hnd, hcount 2 (by decide) (by decide)⟩

end Engine
